import Mathlib

/-!
Shallow embedding of the yotta command-line framework (loader, settings
proxy, theme resolution, decorator type aliases, management entry point)
together with theorems checking the specification's claims against it.

Python data is modelled as follows: strings are `String`, `os.environ` and
Python `dict`s are association lists with Python's insertion-order update
semantics, exceptions are explicit sum types, and `importlib.import_module`
is an environment function from module names to import outcomes.
-/

set_option autoImplicit false

/-! ## Small Python-string helpers -/

/-- Python `str.isspace` on the characters `str.strip()` removes. -/
def isSpaceChar (c : Char) : Bool :=
  c == ' ' || c == '\t' || c == '\n' || c == '\r' || c == Char.ofNat 11 || c == Char.ofNat 12

/-- Drop characters satisfying `p` from both ends of a character list. -/
def dropEnds (p : Char → Bool) (l : List Char) : List Char :=
  ((l.dropWhile p).reverse.dropWhile p).reverse

/-- Python `str.strip()` (no argument): remove surrounding whitespace. -/
def pyStrip (s : String) : String :=
  String.mk (dropEnds isSpaceChar s.toList)

/-- Python `str.strip(c)` for a single character `c`: remove every leading and
trailing occurrence of `c`. -/
def pyStripChar (c : Char) (s : String) : String :=
  String.mk (dropEnds (fun ch => ch == c) s.toList)

/-- Python `str.lower()`: lowercase every character. -/
def pyLower (s : String) : String :=
  String.mk (s.toList.map Char.toLower)

/-- The double-quote character. -/
def dquoteChar : Char := Char.ofNat 34

/-- The single-quote character. -/
def squoteChar : Char := Char.ofNat 39

/-- Boolean list-level "is a contiguous prefix" test. -/
def prefAux : List Char → List Char → Bool
  | [], _ => true
  | _ :: _, [] => false
  | a :: ps, b :: ls => a == b && prefAux ps ls

/-- Boolean list-level "occurs contiguously somewhere" test. -/
def infixAux (p : List Char) : List Char → Bool
  | [] => prefAux p []
  | b :: t => prefAux p (b :: t) || infixAux p t

/-- Python `p in s` on strings: `p` occurs contiguously inside `s`. -/
def isSubOf (p s : String) : Bool :=
  infixAux p.toList s.toList

/-- Python `s.startswith(p)`. -/
def pyStartswith (s p : String) : Bool :=
  prefAux p.toList s.toList

/-! ## Python `dict` as an insertion-ordered association list -/

/-- Lookup in a Python dict. -/
def dictGet {α : Type} : List (String × α) → String → Option α
  | [], _ => none
  | p :: rest, k => if p.1 = k then some p.2 else dictGet rest k

/-- Python `k in d`. -/
def dictMem {α : Type} (d : List (String × α)) (k : String) : Bool :=
  (dictGet d k).isSome

/-- Python `d[k] = v`: replace in place if the key exists, else append. -/
def dictInsert {α : Type} : List (String × α) → String → α → List (String × α)
  | [], k, v => [(k, v)]
  | p :: rest, k, v => if p.1 = k then (k, v) :: rest else p :: dictInsert rest k v

/-- Python `d.setdefault(k, v)` restricted to its effect on the dict. -/
def dictSetdefault {α : Type} (d : List (String × α)) (k : String) (v : α) :
    List (String × α) :=
  if dictMem d k then d else dictInsert d k v

/-! ## yotta/ui/theme.py -/

/-- Embedding of `rich.theme.Theme`: the style table passed to its constructor. -/
structure Theme where
  styles : List (String × String)
deriving DecidableEq, Repr

/-- Source `DEFAULT_THEME` from yotta/ui/theme.py. -/
def DEFAULT_THEME : Theme :=
  ⟨[("primary", "orange_red1"),
    ("secondary", "bright_cyan"),
    ("success", "bold bright_green"),
    ("warning", "bold yellow3"),
    ("error", "bold red3"),
    ("info", "bold blue_violet"),
    ("header", "bold orange_red1")]⟩

/-- Source `DARK_THEME` from yotta/ui/theme.py. -/
def DARK_THEME : Theme :=
  ⟨[("primary", "deep_sky_blue1"),
    ("secondary", "bright_magenta"),
    ("success", "bold spring_green2"),
    ("warning", "bold gold1"),
    ("error", "bold hot_pink3"),
    ("info", "bold dodger_blue2"),
    ("header", "bold deep_sky_blue1")]⟩

/-- Source `THEMES` registry from yotta/ui/theme.py. -/
def THEMES : List (String × Theme) :=
  [("default", DEFAULT_THEME), ("dark", DARK_THEME)]

/-- Source `resolve_theme` from yotta/ui/theme.py.  `none` models Python
`None`; Python truthiness makes the empty string fall back as well.  The
lookup key is `str(theme_name).strip().lower()` and `.get` carries
`DEFAULT_THEME` as its default, so the function is total (never raises). -/
def resolve_theme (theme_name : Option String) : Theme :=
  match theme_name with
  | none => DEFAULT_THEME
  | some s =>
      if s = "" then DEFAULT_THEME
      else (dictGet THEMES (pyLower (pyStrip s))).getD DEFAULT_THEME

/-! ## yotta/core/loader.py: data model -/

/-- A `click.Command` object found in a commands module.  `name` is the
command's optional declared name (`click.Command.name`, possibly `None`);
`objId` is the object's identity, so that distinct command objects defined
by different apps can be told apart. -/
structure Cmd where
  name : Option String
  objId : Nat
deriving DecidableEq, Repr

/-- A value bound to an attribute of a commands module: either a
`click.Command` instance or anything else (ignored by the scan). -/
inductive AttrVal where
  | cmd (c : Cmd)
  | other
deriving DecidableEq, Repr

/-- A Python exception as the loader can observe it: either an
`ImportError` (the only class its `except` clause catches) or any other
exception, each carrying `str(e)`. -/
inductive PyExc where
  | importError (msg : String)
  | otherError (msg : String)
deriving DecidableEq, Repr

/-- Outcome of `importlib.import_module` on one module name: the module's
attribute table (`vars(mod)` in insertion order) or a raised exception. -/
inductive ImportResult where
  | ok (attrs : List (String × AttrVal))
  | exn (e : PyExc)
deriving DecidableEq, Repr

/-- The ambient import system: what importing each module name yields.
Pure, matching Python's module cache (importing twice yields the same). -/
def ImportEnv : Type := String → ImportResult

/-- One line printed by `_LoaderLogger`, tagged with the method that
printed it (`warn`, `info`, `error`). -/
inductive LogLine where
  | warn (msg : String)
  | info (msg : String)
  | error (msg : String)
deriving DecidableEq, Repr

/-- An exception escaping `AppLoader.get_commands`: a propagated Python
exception (raised `ImportError`s included) or `DuplicateCommandNameError`,
which subclasses `RuntimeError`, not `ImportError`. -/
inductive LoaderExc where
  | py (e : PyExc)
  | duplicateCommandName (msg : String)
deriving DecidableEq, Repr

/-- The loader's mutable state during `get_commands`: the `commands` dict,
the `command_sources` dict (name to `(module_name, attribute_name)`), and
the lines printed so far through the logger's console. -/
structure LoaderState where
  commands : List (String × Cmd)
  sources : List (String × (String × String))
  lines : List LogLine
deriving DecidableEq, Repr

/-- Source `_LoaderLogger.warn`: prints unless `quiet`. -/
def loggerWarn (quiet : Bool) (st : LoaderState) (msg : String) : LoaderState :=
  if !quiet then { st with lines := st.lines ++ [LogLine.warn msg] } else st

/-- Source `_LoaderLogger.info`: prints only when `verbose` and not `quiet`. -/
def loggerInfo (quiet verbose : Bool) (st : LoaderState) (msg : String) : LoaderState :=
  if verbose && !quiet then { st with lines := st.lines ++ [LogLine.info msg] } else st

/-- Source `_LoaderLogger.error`: always prints. -/
def loggerError (st : LoaderState) (msg : String) : LoaderState :=
  { st with lines := st.lines ++ [LogLine.error msg] }

/-- Message text of a Python exception, `str(e)`. -/
def PyExc.msg : PyExc → String
  | .importError m => m
  | .otherError m => m

/-- Stand-in for `traceback.format_exc()` at the point where the import
failure was caught. -/
def formatTraceback (e : PyExc) : String :=
  "Traceback (most recent call last): " ++ e.msg

/-- Source line `cmd_name = attr_value.name or attr_name`: Python `or`
falls through on `None` and on the empty string. -/
def resolveName (c : Cmd) (attrName : String) : String :=
  match c.name with
  | some n => if n = "" then attrName else n
  | none => attrName

/-! ## yotta/core/loader.py: `AppLoader.get_commands` -/

/-- The introspection loop of `get_commands` over `vars(mod).items()`:
records each `click.Command`, handling duplicate names (strict raise, or
warn and overwrite so the later definition wins).  Returns the updated
state and the exception that aborted the scan, if any. -/
def scanAttrs (quiet strict : Bool) (moduleName : String) :
    List (String × AttrVal) → LoaderState → LoaderState × Option LoaderExc
  | [], st => (st, none)
  | (_, AttrVal.other) :: rest, st => scanAttrs quiet strict moduleName rest st
  | (attrName, AttrVal.cmd c) :: rest, st =>
      let cmdName := resolveName c attrName
      if dictMem st.commands cmdName then
        let prev := (dictGet st.sources cmdName).getD ("<unknown>", "<unknown>")
        let msg := "Duplicate command name '" ++ cmdName ++ "' discovered. Both '"
          ++ prev.1 ++ ":" ++ prev.2 ++ "' and '" ++ moduleName ++ ":" ++ attrName
          ++ "' define it. Keeping the last one ('" ++ moduleName ++ ":" ++ attrName ++ "')."
        if strict then (st, some (LoaderExc.duplicateCommandName msg))
        else
          let st := loggerWarn quiet st msg
          let st := { st with
            commands := dictInsert st.commands cmdName c,
            sources := dictInsert st.sources cmdName (moduleName, attrName) }
          scanAttrs quiet strict moduleName rest st
      else
        let st := { st with
          commands := dictInsert st.commands cmdName c,
          sources := dictInsert st.sources cmdName (moduleName, attrName) }
        scanAttrs quiet strict moduleName rest st

/-- The per-app body of the `for app_path in self.apps` loop of
`get_commands`: import `app_path + ".commands"`, dispatch on the failure
(missing submodule vs. other `ImportError` vs. anything else, which the
`except ImportError` clause does not catch), then scan the module. -/
def processApp (quiet verbose strict : Bool) (env : ImportEnv)
    (st : LoaderState) (appPath : String) : LoaderState × Option LoaderExc :=
  let moduleName := appPath ++ ".commands"
  match env moduleName with
  | ImportResult.ok attrs =>
      let st := loggerInfo quiet verbose st ("Loaded commands module: " ++ moduleName)
      scanAttrs quiet strict moduleName attrs st
  | ImportResult.exn (PyExc.importError msg) =>
      if isSubOf ("No module named '" ++ moduleName ++ "'") msg then
        let m := "No commands.py found for app '" ++ appPath ++ "'. Skipping."
        if strict then (st, some (LoaderExc.py (PyExc.importError m)))
        else (loggerWarn quiet st m, none)
      else if strict then (st, some (LoaderExc.py (PyExc.importError msg)))
      else
        let st := loggerError st ("Error importing " ++ moduleName ++ ": " ++ msg)
        let st := loggerError st (formatTraceback (PyExc.importError msg))
        (st, none)
  | ImportResult.exn (PyExc.otherError msg) =>
      (st, some (LoaderExc.py (PyExc.otherError msg)))

/-- The `for` loop of `get_commands` over the installed apps, stopping at
the first escaping exception. -/
def getCommandsAux (quiet verbose strict : Bool) (env : ImportEnv) :
    List String → LoaderState → LoaderState × Option LoaderExc
  | [], st => (st, none)
  | app :: rest, st =>
      match processApp quiet verbose strict env st app with
      | (st', none) => getCommandsAux quiet verbose strict env rest st'
      | (st', some e) => (st', some e)

/-- Source `AppLoader.get_commands`, with `self.apps` (from
`settings.INSTALLED_APPS`) and the import system passed explicitly.  The
first component's `commands` field is the returned dict when the second
component is `none`; otherwise the second component is the exception that
aborted discovery, and `lines` holds everything printed before it. -/
def get_commands (quiet verbose strict : Bool) (env : ImportEnv)
    (apps : List String) : LoaderState × Option LoaderExc :=
  getCommandsAux quiet verbose strict env apps ⟨[], [], []⟩

/-! ## Loader: non-strict merge semantics (union of names, last wins) -/

/-- Left-biased choice on options (Python-style fallback). -/
def orOpt {α : Type} (a b : Option α) : Option α :=
  match a with
  | some x => some x
  | none => b

/-- Names of the commands a module's attribute table defines, in scan order. -/
def moduleCommandNames (attrs : List (String × AttrVal)) : List String :=
  attrs.filterMap fun a =>
    match a.2 with
    | AttrVal.cmd c => some (resolveName c a.1)
    | AttrVal.other => none

/-- The command object bound to `name` by the LAST attribute of the module
that resolves to `name` (later attributes overwrite earlier ones). -/
def moduleLastDef : List (String × AttrVal) → String → Option Cmd
  | [], _ => none
  | a :: rest, name =>
      orOpt (moduleLastDef rest name)
        (match a.2 with
         | AttrVal.cmd c => if resolveName c a.1 = name then some c else none
         | AttrVal.other => none)

/-- Command names one app contributes: those of its commands module when
it is imported successfully, none otherwise. -/
def appCommandNames (env : ImportEnv) (app : String) : List String :=
  match env (app ++ ".commands") with
  | ImportResult.ok attrs => moduleCommandNames attrs
  | ImportResult.exn _ => []

/-- The command object an app would leave under `name` (its module's last
definition of that name). -/
def appLastDef (env : ImportEnv) (app : String) (name : String) : Option Cmd :=
  match env (app ++ ".commands") with
  | ImportResult.ok attrs => moduleLastDef attrs name
  | ImportResult.exn _ => none

/-- The command stored under `name` after processing `apps` in order: the
last definition of the latest app that defines `name`. -/
def lastDefIn (env : ImportEnv) : List String → String → Option Cmd
  | [], _ => none
  | app :: rest, name => orOpt (lastDefIn env rest name) (appLastDef env app name)

/-- Import outcomes the loader's `except ImportError` clause cannot catch. -/
def importOtherError (r : ImportResult) : Bool :=
  match r with
  | ImportResult.exn (PyExc.otherError _) => true
  | _ => false

/-! ## yotta/core/management/utility.py: the entry point's loader stage -/

/-- What the entry point observes from its loader stage: commands loaded
and attached; an `ImportError` caught by the `except ImportError` clause
(stored in `settings_error`, so discovered commands are skipped and a
settings-error message is shown, the process returning normally); or an
exception no clause catches, which propagates out of `execute` and
terminates the process with a traceback and a nonzero exit status. -/
inductive ExecOutcome where
  | commandsLoaded (commands : List (String × Cmd)) (lines : List LogLine)
  | settingsErrorCaught (settings_error : String) (lines : List LogLine)
  | uncaughtException (e : LoaderExc) (lines : List LogLine)
deriving DecidableEq, Repr

/-- The `try: loader = AppLoader(...); discovered_commands =
loader.get_commands() except ImportError as exc: settings_error =
str(exc)` stage of `yottaUtility.execute`.  `settingsApps` is what
evaluating `settings.INSTALLED_APPS` in `AppLoader.__init__` yields: the
app list, or the message of the `ImportError` raised when the settings
module cannot be resolved. -/
def executeLoaderStage (quiet verbose strict : Bool)
    (settingsApps : Except String (List String)) (env : ImportEnv) : ExecOutcome :=
  match settingsApps with
  | Except.error msg => ExecOutcome.settingsErrorCaught msg []
  | Except.ok apps =>
      match get_commands quiet verbose strict env apps with
      | (st, none) => ExecOutcome.commandsLoaded st.commands st.lines
      | (st, some (LoaderExc.py (PyExc.importError m))) =>
          ExecOutcome.settingsErrorCaught m st.lines
      | (st, some e) => ExecOutcome.uncaughtException e st.lines

/-! ## yotta/conf/__init__.py: the settings proxy -/

/-- Python `os.environ`, a dict of strings. -/
abbrev EnvMap : Type := List (String × String)

/-- Python `'=' in s`. -/
def hasEqChar (s : String) : Bool :=
  s.toList.contains '='

/-- One iteration of the line loop in `Settings._load_env`: strip the
line; skip it when empty, a `#` comment, or without `=`; otherwise split
at the first `=`, strip the key, and strip whitespace then surrounding
double and single quotes from the value. -/
def parseEnvLine (line : String) : Option (String × String) :=
  let stripped := pyStrip line
  if stripped = "" || pyStartswith stripped "#" || !(hasEqChar stripped) then none
  else
    let key := pyStrip (String.mk (stripped.toList.takeWhile (fun ch => !(ch == '='))))
    let value := pyStripChar squoteChar (pyStripChar dquoteChar
      (pyStrip (String.mk ((stripped.toList.dropWhile (fun ch => !(ch == '='))).tail))))
    some (key, value)

/-- The body of `Settings._load_env` for one environment file: parse each
line, record it in `loaded`, and write it to `os.environ` — always for
`.env.local` (`isLocal`), fill-if-absent (`setdefault`) for `.env`. -/
def processEnvFile (isLocal : Bool) (acc : EnvMap × List (String × String))
    (lines : List String) : EnvMap × List (String × String) :=
  lines.foldl
    (fun acc line =>
      match parseEnvLine line with
      | none => acc
      | some kv =>
          let loaded := dictInsert acc.2 kv.1 kv.2
          let environ :=
            if isLocal then dictInsert acc.1 kv.1 kv.2
            else dictSetdefault acc.1 kv.1 kv.2
          (environ, loaded))
    acc

/-- The per-instance state `Settings` keeps for `_load_env`: the OS
environment, the `_env_loaded` latch, and `debug_enabled`. -/
structure SettingsState where
  environ : EnvMap
  env_loaded : Bool
  debug_enabled : Bool
deriving DecidableEq, Repr

/-- Source `Settings._get_bool_env`. -/
def getBoolEnv (environ : EnvMap) (key : String) (dflt : Bool) : Bool :=
  match dictGet environ key with
  | none => dflt
  | some v => (["1", "true", "yes", "on"] : List String).contains (pyLower v)

/-- Source `Settings._load_env`.  `fs` holds the contents of `.env` and
`.env.local` (`none` when the file does not exist).  Returns the updated
state and the `loaded` dict the method returns (empty on the short-cut
second call). -/
def load_env (fs : Option (List String) × Option (List String))
    (st : SettingsState) : SettingsState × List (String × String) :=
  if st.env_loaded then (st, [])
  else
    let acc0 : EnvMap × List (String × String) := (st.environ, [])
    let acc1 :=
      match fs.1 with
      | none => acc0
      | some ls => processEnvFile false acc0 ls
    let acc2 :=
      match fs.2 with
      | none => acc1
      | some ls => processEnvFile true acc1 ls
    ({ environ := acc2.1, env_loaded := true,
       debug_enabled := getBoolEnv acc2.1 "YOTTA_DEBUG" false }, acc2.2)

/-- Python truthiness on an optional string: `None` and the empty string
are falsy. -/
def pyTruthy (o : Option String) : Option String :=
  match o with
  | some s => if s = "" then none else some s
  | none => none

/-- The module-name resolution of `Settings._setup` (run on first
attribute access when `_wrapped is None`): the explicit
`YOTTA_SETTINGS_MODULE` variable if truthy; else `"settings_" + YOTTA_ENV`
(written back into `YOTTA_SETTINGS_MODULE`) if `YOTTA_ENV` is truthy;
else the `ImportError` whose message names the missing variable.  Returns
the module name to import and the possibly updated environment. -/
def setupResolve (environ : EnvMap) : Except String (String × EnvMap) :=
  match pyTruthy (dictGet environ "YOTTA_SETTINGS_MODULE") with
  | some m => Except.ok (m, environ)
  | none =>
      match pyTruthy (dictGet environ "YOTTA_ENV") with
      | some v =>
          Except.ok ("settings_" ++ v,
            dictInsert environ "YOTTA_SETTINGS_MODULE" ("settings_" ++ v))
      | none =>
          Except.error ("YOTTA_SETTINGS_MODULE is not defined. Set it in your environment, in a .env/.env.local file, or via manage.py before running commands.")

/-! ## yotta/cli/decorators.py: type-alias resolution -/

/-- The parameter-type objects the alias table can produce: the custom
types from yotta/core/types.py and the built-in click scalar types. -/
inductive ParamType where
  | EMAIL
  | clickINT
  | clickFLOAT
  | clickSTRING
  | PATH
  | DIRECTORY
  | UUID_TYPE
  | URL
  | JSON
  | PORT
deriving DecidableEq, Repr

/-- A `type=` keyword value before resolution: a string alias, or any
non-string object (`click.ParamType` instances, tuples, ...), identified
opaquely. -/
inductive TypeHint where
  | str (s : String)
  | nonStr (id : Nat)
deriving DecidableEq, Repr

/-- A `type=` keyword value after resolution: the untouched original or a
registry entry. -/
inductive ResolvedType where
  | hint (t : TypeHint)
  | registry (p : ParamType)
deriving DecidableEq, Repr

/-- Source `_resolve_type_alias`: non-strings pass through; strings are
lowercased and stripped and looked up in the alias chain; unknown aliases
are left untouched for click to handle. -/
def resolve_type_alias (type_hint : TypeHint) : ResolvedType :=
  match type_hint with
  | TypeHint.nonStr _ => ResolvedType.hint type_hint
  | TypeHint.str s =>
      let a := pyStrip (pyLower s)
      if a = "email" then ResolvedType.registry ParamType.EMAIL
      else if a = "int" then ResolvedType.registry ParamType.clickINT
      else if a = "float" then ResolvedType.registry ParamType.clickFLOAT
      else if a = "str" ∨ a = "string" then ResolvedType.registry ParamType.clickSTRING
      else if a = "path" ∨ a = "filepath" then ResolvedType.registry ParamType.PATH
      else if a = "dir" ∨ a = "directory" then ResolvedType.registry ParamType.DIRECTORY
      else if a = "uuid" then ResolvedType.registry ParamType.UUID_TYPE
      else if a = "url" then ResolvedType.registry ParamType.URL
      else if a = "json" then ResolvedType.registry ParamType.JSON
      else if a = "port" then ResolvedType.registry ParamType.PORT
      else ResolvedType.hint type_hint

/-- The keyword arguments `option` inspects: the optional `type`, whether
a `default` was supplied, the optional explicit `show_default`, and
`kwargs.get("is_flag")`. -/
structure OptionKwargs where
  type? : Option TypeHint
  hasDefault : Bool
  show_default? : Option Bool
  is_flag? : Option Bool
deriving DecidableEq, Repr

/-- The keyword arguments `option` hands on to `click.option`. -/
structure OptionDelegated where
  type? : Option ResolvedType
  hasDefault : Bool
  show_default? : Option Bool
  is_flag? : Option Bool
deriving DecidableEq, Repr

/-- Source `option`: resolve the `type` alias when present, and enable
`show_default` when a default was given, no explicit `show_default` was
supplied and the option is not a flag; everything is then delegated to
`click.option`. -/
def option (kw : OptionKwargs) : OptionDelegated :=
  let t := kw.type?.map resolve_type_alias
  let sd :=
    if kw.show_default?.isNone ∧ kw.hasDefault ∧ ¬(kw.is_flag? = some true)
    then some true else kw.show_default?
  { type? := t, hasDefault := kw.hasDefault, show_default? := sd,
    is_flag? := kw.is_flag? }

/-- Source `argument`: resolve the `type` alias when present, then
delegate to `click.argument`. -/
def argument (type? : Option TypeHint) : Option ResolvedType :=
  type?.map resolve_type_alias

/-- The duplicate-command warning/exception message `get_commands` builds
(the f-string at its collision check), as a function of the colliding
name, the previous source location and the new one. -/
def duplicateMsg (cmdName prevModule prevAttr newModule newAttr : String) : String :=
  "Duplicate command name '" ++ cmdName ++ "' discovered. Both '" ++ prevModule ++ ":"
    ++ prevAttr ++ "' and '" ++ newModule ++ ":" ++ newAttr
    ++ "' define it. Keeping the last one ('" ++ newModule ++ ":" ++ newAttr ++ "')."

/-- The key=value pairs an environment file's lines parse to, in order. -/
def envEntries (lines : List String) : List (String × String) :=
  lines.filterMap parseEnvLine

/-- The value of the LAST entry for `k` in a parsed entry list. -/
def lastVal : List (String × String) → String → Option String
  | [], _ => none
  | e :: rest, k => orOpt (lastVal rest k) (if e.1 = k then some e.2 else none)

/-- The value of the FIRST entry for `k` in a parsed entry list. -/
def firstVal : List (String × String) → String → Option String
  | [], _ => none
  | e :: rest, k => if e.1 = k then some e.2 else firstVal rest k

/-! ## Loader lemmas: printed lines accumulate, and flags touch only them -/

/-- Which log lines the logger actually prints for a given flag pair:
warnings unless `quiet`, info only when `verbose` and not `quiet`, errors
always. -/
def logVisible (quiet verbose : Bool) : LogLine → Bool
  | LogLine.warn _ => !quiet
  | LogLine.info _ => verbose && !quiet
  | LogLine.error _ => true

/-- Test for an error-level log line. -/
def isErrorLine : LogLine → Bool
  | LogLine.error _ => true
  | _ => false

theorem scanAttrs_lines (quiet strict : Bool) (m : String)
    (attrs : List (String × AttrVal)) (c : List (String × Cmd))
    (s : List (String × (String × String))) (L : List LogLine) :
    scanAttrs quiet strict m attrs ⟨c, s, L⟩ =
      (⟨(scanAttrs quiet strict m attrs ⟨c, s, []⟩).1.commands,
        (scanAttrs quiet strict m attrs ⟨c, s, []⟩).1.sources,
        L ++ (scanAttrs quiet strict m attrs ⟨c, s, []⟩).1.lines⟩,
       (scanAttrs quiet strict m attrs ⟨c, s, []⟩).2) := by
  induction attrs generalizing c s L with
  | nil => simp [scanAttrs]
  | cons a rest ih =>
      obtain ⟨attrName, v⟩ := a
      cases v with
      | other => simpa [scanAttrs] using ih c s L
      | cmd c0 =>
          simp only [scanAttrs]
          by_cases hmem : dictMem c (resolveName c0 attrName) = true
          · simp only [hmem, if_true]
            by_cases hstrict : strict = true
            · simp [hstrict]
            · have hs : strict = false := by revert hstrict; cases strict <;> simp
              subst hs
              simp only [Bool.false_eq_true, if_false, loggerWarn]
              by_cases hq : quiet = true
              · subst hq
                simpa using ih _ _ L
              · have hq' : quiet = false := by revert hq; cases quiet <;> simp
                subst hq'
                simp only [Bool.not_false, if_true]
                rw [ih _ _ (L ++ [LogLine.warn _]), ih _ _ ([] ++ [LogLine.warn _])]
                try simp
          · simp only [hmem]
            simp only [Bool.false_eq_true, if_false]
            rw [ih _ _ L, ih _ _ ([] : List LogLine)]
            try simp

theorem processApp_lines (quiet verbose strict : Bool) (env : ImportEnv)
    (app : String) (c : List (String × Cmd))
    (s : List (String × (String × String))) (L : List LogLine) :
    processApp quiet verbose strict env ⟨c, s, L⟩ app =
      (⟨(processApp quiet verbose strict env ⟨c, s, []⟩ app).1.commands,
        (processApp quiet verbose strict env ⟨c, s, []⟩ app).1.sources,
        L ++ (processApp quiet verbose strict env ⟨c, s, []⟩ app).1.lines⟩,
       (processApp quiet verbose strict env ⟨c, s, []⟩ app).2) := by
  simp only [processApp]
  cases henv : env (app ++ ".commands") with
  | ok attrs =>
      simp only [loggerInfo]
      by_cases hv : (verbose && !quiet) = true
      · simp only [hv, if_true]
        rw [scanAttrs_lines _ _ _ _ _ _ (L ++ _), scanAttrs_lines _ _ _ _ _ _ ([] ++ _)]
        try simp
      · simp only [hv, Bool.false_eq_true, if_false]
        rw [scanAttrs_lines _ _ _ _ _ _ L]
        try simp
  | exn e =>
      cases e with
      | importError msg =>
          by_cases hsub : isSubOf ("No module named '" ++ (app ++ ".commands") ++ "'") msg = true
          · simp only [hsub, if_true]
            cases strict <;> cases quiet <;> simp [loggerWarn]
          · simp only [hsub]
            cases strict <;> simp [loggerError]
      | otherError msg => simp

theorem getCommandsAux_lines (quiet verbose strict : Bool) (env : ImportEnv)
    (apps : List String) (c : List (String × Cmd))
    (s : List (String × (String × String))) (L : List LogLine) :
    getCommandsAux quiet verbose strict env apps ⟨c, s, L⟩ =
      (⟨(getCommandsAux quiet verbose strict env apps ⟨c, s, []⟩).1.commands,
        (getCommandsAux quiet verbose strict env apps ⟨c, s, []⟩).1.sources,
        L ++ (getCommandsAux quiet verbose strict env apps ⟨c, s, []⟩).1.lines⟩,
       (getCommandsAux quiet verbose strict env apps ⟨c, s, []⟩).2) := by
  induction apps generalizing c s L with
  | nil => simp [getCommandsAux]
  | cons app rest ih =>
      simp only [getCommandsAux]
      rw [processApp_lines _ _ _ _ _ _ _ L, processApp_lines _ _ _ _ _ _ _ []]
      cases hp : (processApp quiet verbose strict env ⟨c, s, []⟩ app).2 with
      | some e => simp
      | none =>
          simp only []
          rw [ih _ _ (L ++ _), ih _ _ ([] ++ _)]
          simp

theorem filter_logVisible_isErrorLine (quiet verbose : Bool) (l : List LogLine) :
    (l.filter (logVisible quiet verbose)).filter isErrorLine = l.filter isErrorLine := by
  induction l with
  | nil => rfl
  | cons x rest ih =>
      cases x with
      | warn m => cases quiet <;> simp [logVisible, isErrorLine, ih]
      | info m => cases quiet <;> cases verbose <;> simp [logVisible, isErrorLine, ih]
      | error m => simp [logVisible, isErrorLine, ih]

theorem scanAttrs_warnOnly (quiet strict : Bool) (m : String)
    (attrs : List (String × AttrVal)) (c : List (String × Cmd))
    (s : List (String × (String × String))) :
    ∀ l ∈ (scanAttrs quiet strict m attrs ⟨c, s, []⟩).1.lines,
      ∃ msg, l = LogLine.warn msg := by
  induction attrs generalizing c s with
  | nil => simp [scanAttrs]
  | cons a rest ih =>
      obtain ⟨attrName, v⟩ := a
      cases v with
      | other => simpa [scanAttrs] using ih c s
      | cmd c0 =>
          simp only [scanAttrs]
          by_cases hmem : dictMem c (resolveName c0 attrName) = true
          · simp only [hmem, if_true]
            by_cases hstrict : strict = true
            · simp [hstrict]
            · have hs : strict = false := by revert hstrict; cases strict <;> simp
              subst hs
              simp only [Bool.false_eq_true, if_false, loggerWarn]
              cases quiet with
              | false =>
                  simp only [Bool.not_false, if_true]
                  rw [scanAttrs_lines _ _ _ _ _ _ ([] ++ [LogLine.warn _])]
                  intro l hl
                  simp only [List.nil_append, List.cons_append, List.mem_cons,
                    List.mem_append] at hl
                  rcases hl with h | h
                  · exact ⟨_, h⟩
                  · exact ih _ _ l h
              | true =>
                  simp only [Bool.not_true, Bool.false_eq_true, if_false]
                  exact ih _ _
          · simp only [hmem, Bool.false_eq_true, if_false]
            exact ih _ _

theorem filter_logVisible_full (l : List LogLine) :
    l.filter (logVisible false true) = l := by
  induction l with
  | nil => rfl
  | cons x rest ih => cases x <;> simp [logVisible, ih]

theorem filter_logVisible_warnOnly (verbose : Bool) (l : List LogLine)
    (h : ∀ x ∈ l, ∃ msg, x = LogLine.warn msg) :
    l.filter (logVisible false verbose) = l := by
  induction l with
  | nil => rfl
  | cons x rest ih =>
      obtain ⟨msg, rfl⟩ := h x (by simp)
      simp [logVisible, ih (fun y hy => h y (by simp [hy]))]

theorem scanAttrs_flags (quiet verbose strict : Bool) (m : String)
    (attrs : List (String × AttrVal)) (c : List (String × Cmd))
    (s : List (String × (String × String))) :
    scanAttrs quiet strict m attrs ⟨c, s, []⟩ =
      (⟨(scanAttrs false strict m attrs ⟨c, s, []⟩).1.commands,
        (scanAttrs false strict m attrs ⟨c, s, []⟩).1.sources,
        ((scanAttrs false strict m attrs ⟨c, s, []⟩).1.lines).filter (logVisible quiet verbose)⟩,
       (scanAttrs false strict m attrs ⟨c, s, []⟩).2) := by
  induction attrs generalizing c s with
  | nil => simp [scanAttrs]
  | cons a rest ih =>
      obtain ⟨attrName, v⟩ := a
      cases v with
      | other => simpa [scanAttrs] using ih c s
      | cmd c0 =>
          simp only [scanAttrs]
          by_cases hmem : dictMem c (resolveName c0 attrName) = true
          · simp only [hmem, if_true]
            by_cases hstrict : strict = true
            · simp [hstrict]
            · have hs : strict = false := by revert hstrict; cases strict <;> simp
              subst hs
              simp only [Bool.false_eq_true, if_false, loggerWarn]
              cases quiet with
              | false =>
                  simp only [Bool.not_false, if_true]
                  rw [scanAttrs_lines _ _ _ _ _ _ ([] ++ [LogLine.warn _])]
                  have hw := scanAttrs_warnOnly false false m rest
                    (dictInsert c (resolveName c0 attrName) c0)
                    (dictInsert s (resolveName c0 attrName) (m, attrName))
                  simp [logVisible, filter_logVisible_warnOnly verbose _ hw]
              | true =>
                  simp only [Bool.not_true, Bool.not_false, Bool.false_eq_true,
                    if_false, if_true]
                  rw [ih, scanAttrs_lines _ _ _ _ _ _ ([] ++ [LogLine.warn _])]
                  simp [logVisible]
          · simp only [hmem, Bool.false_eq_true, if_false]
            exact ih _ _

theorem processApp_flags (quiet verbose strict : Bool) (env : ImportEnv)
    (app : String) (c : List (String × Cmd))
    (s : List (String × (String × String))) :
    processApp quiet verbose strict env ⟨c, s, []⟩ app =
      (⟨(processApp false true strict env ⟨c, s, []⟩ app).1.commands,
        (processApp false true strict env ⟨c, s, []⟩ app).1.sources,
        ((processApp false true strict env ⟨c, s, []⟩ app).1.lines).filter (logVisible quiet verbose)⟩,
       (processApp false true strict env ⟨c, s, []⟩ app).2) := by
  simp only [processApp]
  cases henv : env (app ++ ".commands") with
  | ok attrs =>
      simp only [loggerInfo, Bool.and_self, Bool.not_false, if_true]
      by_cases hv : (verbose && !quiet) = true
      · have hq : quiet = false := by revert hv; cases quiet <;> cases verbose <;> simp
        have hvb : verbose = true := by revert hv; cases quiet <;> cases verbose <;> simp
        subst hq; subst hvb
        simp only [Bool.not_false, Bool.and_self, if_true]
        rw [scanAttrs_lines _ _ _ _ _ _ ([] ++ [LogLine.info _])]
        simp [filter_logVisible_full]
      · have hv' : (verbose && !quiet) = false := by
          revert hv; cases (verbose && !quiet) <;> simp
        simp only [hv', Bool.false_eq_true, if_false]
        rw [scanAttrs_flags quiet verbose,
          scanAttrs_lines false _ _ _ _ _ ([] ++ [LogLine.info _])]
        simp [logVisible, hv']
  | exn e =>
      cases e with
      | importError msg =>
          by_cases hsub : isSubOf ("No module named '" ++ (app ++ ".commands") ++ "'") msg = true
          · simp only [hsub, if_true]
            cases strict <;> cases quiet <;> simp [loggerWarn, logVisible]
          · simp only [hsub]
            cases strict <;> simp [loggerError, logVisible]
      | otherError msg => simp

theorem getCommandsAux_flags (quiet verbose strict : Bool) (env : ImportEnv)
    (apps : List String) (c : List (String × Cmd))
    (s : List (String × (String × String))) :
    getCommandsAux quiet verbose strict env apps ⟨c, s, []⟩ =
      (⟨(getCommandsAux false true strict env apps ⟨c, s, []⟩).1.commands,
        (getCommandsAux false true strict env apps ⟨c, s, []⟩).1.sources,
        ((getCommandsAux false true strict env apps ⟨c, s, []⟩).1.lines).filter
          (logVisible quiet verbose)⟩,
       (getCommandsAux false true strict env apps ⟨c, s, []⟩).2) := by
  induction apps generalizing c s with
  | nil => simp [getCommandsAux]
  | cons app rest ih =>
      simp only [getCommandsAux]
      rw [processApp_flags quiet verbose strict env app c s]
      rcases hP : processApp false true strict env ⟨c, s, []⟩ app with ⟨stp, ep⟩
      obtain ⟨pc, ps, pl⟩ := stp
      cases ep with
      | some e => simp
      | none =>
          simp only []
          rw [getCommandsAux_lines quiet verbose strict env rest pc ps
              (List.filter (logVisible quiet verbose) pl),
            getCommandsAux_lines false true strict env rest pc ps pl,
            ih pc ps]
          simp [List.filter_append]

/-- C5: the `quiet`/`verbose` flags never influence what `get_commands`
computes, only what it prints.  Any run equals the full-logging run
(`quiet = false`, `verbose = true`) in its command mapping, its source
table and its outcome (normal return or exception), and its printed lines
are exactly the full run's lines filtered by visibility: warnings kept
unless `quiet`, info kept only when `verbose` and not `quiet`, errors kept
always.  In particular any two flag settings agree on the mapping and the
outcome, and on the error lines printed. -/
theorem get_commands_flag_independent (quiet verbose quiet' verbose' strict : Bool)
    (env : ImportEnv) (apps : List String) :
    ((get_commands quiet verbose strict env apps).1.commands =
      (get_commands quiet' verbose' strict env apps).1.commands) ∧
    ((get_commands quiet verbose strict env apps).2 =
      (get_commands quiet' verbose' strict env apps).2) ∧
    ((get_commands quiet verbose strict env apps).1.lines =
      ((get_commands false true strict env apps).1.lines).filter (logVisible quiet verbose)) ∧
    ((get_commands quiet verbose strict env apps).1.lines.filter isErrorLine =
      (get_commands quiet' verbose' strict env apps).1.lines.filter isErrorLine) := by
  have h1 := getCommandsAux_flags quiet verbose strict env apps [] []
  have h2 := getCommandsAux_flags quiet' verbose' strict env apps [] []
  refine ⟨?_, ?_, ?_, ?_⟩
  · rw [get_commands, get_commands, h1, h2]
  · rw [get_commands, get_commands, h1, h2]
  · rw [get_commands, get_commands, h1]
  · rw [get_commands, get_commands, h1, h2]
    dsimp only
    rw [filter_logVisible_isErrorLine, filter_logVisible_isErrorLine]

theorem orOpt_none_right {α : Type} (a : Option α) : orOpt a none = a := by
  cases a <;> rfl

theorem orOpt_some {α : Type} (x : α) (b : Option α) : orOpt (some x) b = some x := rfl

theorem loggerWarn_commands (quiet : Bool) (st : LoaderState) (msg : String) :
    (loggerWarn quiet st msg).commands = st.commands := by
  cases quiet <;> simp [loggerWarn]

theorem loggerError_commands (st : LoaderState) (msg : String) :
    (loggerError st msg).commands = st.commands := rfl

theorem orOpt_assoc {α : Type} (a b c : Option α) :
    orOpt (orOpt a b) c = orOpt a (orOpt b c) := by
  cases a <;> rfl

theorem dictGet_dictInsert_self {α : Type} (d : List (String × α)) (k : String) (v : α) :
    dictGet (dictInsert d k v) k = some v := by
  induction d with
  | nil => simp [dictInsert, dictGet]
  | cons p rest ih =>
      by_cases h : p.1 = k
      · simp [dictInsert, dictGet, h]
      · simp [dictInsert, dictGet, h, ih]

theorem dictGet_dictInsert_ne {α : Type} (d : List (String × α)) (k k' : String) (v : α)
    (h : k ≠ k') : dictGet (dictInsert d k v) k' = dictGet d k' := by
  induction d with
  | nil => simp [dictInsert, dictGet, h]
  | cons p rest ih =>
      by_cases hp : p.1 = k
      · simp [dictInsert, dictGet, hp, h]
      · simp only [dictInsert, hp, if_false]
        by_cases hp' : p.1 = k'
        · simp [dictGet, hp']
        · simp [dictGet, hp', ih]

theorem scanAttrs_nonstrict (quiet : Bool) (m : String)
    (attrs : List (String × AttrVal)) (st : LoaderState) :
    (scanAttrs quiet false m attrs st).2 = none ∧
    ∀ name, dictGet (scanAttrs quiet false m attrs st).1.commands name =
      orOpt (moduleLastDef attrs name) (dictGet st.commands name) := by
  induction attrs generalizing st with
  | nil =>
      refine ⟨rfl, fun name => ?_⟩
      simp [scanAttrs, moduleLastDef, orOpt]
  | cons a rest ih =>
      obtain ⟨attrName, v⟩ := a
      cases v with
      | other =>
          refine ⟨?_, fun name => ?_⟩
          · simpa [scanAttrs] using (ih st).1
          · simp only [scanAttrs]
            rw [(ih st).2 name]
            simp [moduleLastDef, orOpt_none_right]
      | cmd c0 =>
          have hstep : ∀ st' : LoaderState,
              st'.commands = dictInsert st.commands (resolveName c0 attrName) c0 →
              (scanAttrs quiet false m rest st').2 = none ∧
              ∀ name, dictGet (scanAttrs quiet false m rest st').1.commands name =
                orOpt (moduleLastDef (( attrName, AttrVal.cmd c0) :: rest) name)
                  (dictGet st.commands name) := by
            intro st' hst'
            refine ⟨(ih st').1, fun name => ?_⟩
            rw [(ih st').2 name, hst']
            by_cases hname : resolveName c0 attrName = name
            · subst hname
              rw [dictGet_dictInsert_self]
              simp [moduleLastDef, orOpt_assoc, orOpt_some]
            · rw [dictGet_dictInsert_ne _ _ _ _ hname]
              simp only [moduleLastDef, if_neg hname]
              rw [orOpt_none_right]
          simp only [scanAttrs]
          by_cases hmem : dictMem st.commands (resolveName c0 attrName) = true
          · simp only [hmem, if_true, Bool.false_eq_true, if_false]
            exact hstep _ (by rw [loggerWarn_commands])
          · simp only [hmem, Bool.false_eq_true, if_false]
            exact hstep _ rfl

theorem processApp_nonstrict (quiet verbose : Bool) (env : ImportEnv)
    (st : LoaderState) (app : String)
    (h : importOtherError (env (app ++ ".commands")) = false) :
    (processApp quiet verbose false env st app).2 = none ∧
    ∀ name, dictGet (processApp quiet verbose false env st app).1.commands name =
      orOpt (appLastDef env app name) (dictGet st.commands name) := by
  simp only [processApp, appLastDef]
  cases henv : env (app ++ ".commands") with
  | ok attrs =>
      have hlog : (loggerInfo quiet verbose st ("Loaded commands module: " ++ (app ++ ".commands"))).commands
          = st.commands := by
        simp only [loggerInfo]
        by_cases hv : (verbose && !quiet) = true <;> simp [hv]
      obtain ⟨h1, h2⟩ := scanAttrs_nonstrict quiet (app ++ ".commands") attrs
        (loggerInfo quiet verbose st ("Loaded commands module: " ++ (app ++ ".commands")))
      refine ⟨h1, fun name => ?_⟩
      rw [h2 name, hlog]
  | exn e =>
      cases e with
      | importError msg =>
          by_cases hsub : isSubOf ("No module named '" ++ (app ++ ".commands") ++ "'") msg = true
          · simp only [hsub, if_true, Bool.false_eq_true, if_false]
            refine ⟨by trivial, fun name => ?_⟩
            rw [loggerWarn_commands]
            rfl
          · simp only [hsub, Bool.false_eq_true, if_false]
            refine ⟨by trivial, fun name => ?_⟩
            rw [loggerError_commands, loggerError_commands]
            rfl
      | otherError msg =>
          rw [henv] at h
          simp [importOtherError] at h

theorem getCommandsAux_nonstrict (quiet verbose : Bool) (env : ImportEnv)
    (apps : List String) (st : LoaderState)
    (h : ∀ app ∈ apps, importOtherError (env (app ++ ".commands")) = false) :
    (getCommandsAux quiet verbose false env apps st).2 = none ∧
    ∀ name, dictGet (getCommandsAux quiet verbose false env apps st).1.commands name =
      orOpt (lastDefIn env apps name) (dictGet st.commands name) := by
  induction apps generalizing st with
  | nil =>
      refine ⟨rfl, fun name => ?_⟩
      simp [getCommandsAux, lastDefIn, orOpt]
  | cons app rest ih =>
      obtain ⟨hp1, hp2⟩ := processApp_nonstrict quiet verbose env st app
        (h app (by simp))
      have hrest : ∀ a ∈ rest, importOtherError (env (a ++ ".commands")) = false :=
        fun a ha => h a (by simp [ha])
      simp only [getCommandsAux]
      rcases hP : processApp quiet verbose false env st app with ⟨stp, ep⟩
      rw [hP] at hp1 hp2
      simp only at hp1
      subst hp1
      simp only []
      obtain ⟨h1, h2⟩ := ih stp hrest
      refine ⟨h1, fun name => ?_⟩
      rw [h2 name, hp2 name]
      simp [lastDefIn, orOpt_assoc]

theorem orOpt_isSome {α : Type} (a b : Option α) :
    (orOpt a b).isSome = (a.isSome || b.isSome) := by
  cases a <;> simp [orOpt]

theorem moduleCommandNames_cons_other (attrName : String) (rest : List (String × AttrVal)) :
    moduleCommandNames ((attrName, AttrVal.other) :: rest) = moduleCommandNames rest := by
  simp [moduleCommandNames]

theorem moduleCommandNames_cons_cmd (attrName : String) (c0 : Cmd)
    (rest : List (String × AttrVal)) :
    moduleCommandNames ((attrName, AttrVal.cmd c0) :: rest) =
      resolveName c0 attrName :: moduleCommandNames rest := by
  simp [moduleCommandNames]

theorem moduleLastDef_isSome (attrs : List (String × AttrVal)) (name : String) :
    (moduleLastDef attrs name).isSome = true ↔ name ∈ moduleCommandNames attrs := by
  induction attrs with
  | nil => simp [moduleLastDef, moduleCommandNames]
  | cons a rest ih =>
      obtain ⟨attrName, v⟩ := a
      cases v with
      | other =>
          rw [moduleCommandNames_cons_other]
          rw [show moduleLastDef ((attrName, AttrVal.other) :: rest) name =
              moduleLastDef rest name from by simp [moduleLastDef, orOpt_none_right]]
          exact ih
      | cmd c0 =>
          rw [moduleCommandNames_cons_cmd]
          by_cases hname : resolveName c0 attrName = name
          · have hsome : (moduleLastDef ((attrName, AttrVal.cmd c0) :: rest) name).isSome
                = true := by
              simp [moduleLastDef, hname, orOpt_isSome]
            constructor
            · intro _
              exact List.mem_cons.2 (Or.inl hname.symm)
            · intro _
              exact hsome
          · rw [show moduleLastDef ((attrName, AttrVal.cmd c0) :: rest) name =
                moduleLastDef rest name from by
              simp [moduleLastDef, hname, orOpt_none_right]]
            rw [ih, List.mem_cons]
            constructor
            · exact fun hm => Or.inr hm
            · rintro (h | hm)
              · exact absurd h.symm hname
              · exact hm

theorem appLastDef_isSome (env : ImportEnv) (app name : String) :
    (appLastDef env app name).isSome = true ↔ name ∈ appCommandNames env app := by
  unfold appLastDef appCommandNames
  cases env (app ++ ".commands") with
  | ok attrs => exact moduleLastDef_isSome attrs name
  | exn e => simp

theorem lastDefIn_isSome (env : ImportEnv) (apps : List String) (name : String) :
    (lastDefIn env apps name).isSome = true ↔
      ∃ app ∈ apps, name ∈ appCommandNames env app := by
  induction apps with
  | nil => simp [lastDefIn]
  | cons app rest ih =>
      simp [lastDefIn, orOpt_isSome, Bool.or_eq_true, ih, appLastDef_isSome,
        List.exists_mem_cons_iff, or_comm]

theorem lastDefIn_eq_none (env : ImportEnv) (apps : List String) (name : String)
    (h : ∀ a ∈ apps, name ∉ appCommandNames env a) :
    lastDefIn env apps name = none := by
  cases hl : lastDefIn env apps name with
  | none => rfl
  | some c =>
      exfalso
      have hs : (lastDefIn env apps name).isSome = true := by rw [hl]; rfl
      obtain ⟨a, ha, hmem⟩ := (lastDefIn_isSome env apps name).1 hs
      exact h a ha hmem

theorem lastDefIn_last_app (env : ImportEnv) (pre post : List String) (app name : String)
    (happ : name ∈ appCommandNames env app)
    (hpost : ∀ a ∈ post, name ∉ appCommandNames env a) :
    lastDefIn env (pre ++ app :: post) name = appLastDef env app name := by
  induction pre with
  | nil =>
      simp only [List.nil_append, lastDefIn]
      rw [lastDefIn_eq_none env post name hpost]
      rfl
  | cons p pre' ih =>
      show orOpt (lastDefIn env (pre' ++ app :: post) name) (appLastDef env p name) =
        appLastDef env app name
      rw [ih]
      cases hl : appLastDef env app name with
      | none =>
          exfalso
          have hs := (appLastDef_isSome env app name).2 happ
          rw [hl] at hs
          exact Bool.false_ne_true hs
      | some c => rfl

/-- C1: in non-strict mode (and provided no app's commands module raises a
non-`ImportError`, which `get_commands` would not catch), discovery returns
normally; the returned dict's key set is exactly the union of the command
names contributed by apps whose commands module imported successfully; every
lookup yields the last definition of the latest app in input order defining
that name; and in particular, when `app` is the latest app defining `name`,
the stored command object is `app`'s. -/
theorem get_commands_nonstrict_merge (quiet verbose : Bool) (env : ImportEnv)
    (apps : List String)
    (h : ∀ app ∈ apps, importOtherError (env (app ++ ".commands")) = false) :
    (get_commands quiet verbose false env apps).2 = none ∧
    (∀ name, dictMem (get_commands quiet verbose false env apps).1.commands name = true ↔
      ∃ app ∈ apps, name ∈ appCommandNames env app) ∧
    (∀ name, dictGet (get_commands quiet verbose false env apps).1.commands name =
      lastDefIn env apps name) ∧
    (∀ (name : String) (pre post : List String) (app : String),
      apps = pre ++ app :: post →
      name ∈ appCommandNames env app →
      (∀ a ∈ post, name ∉ appCommandNames env a) →
      dictGet (get_commands quiet verbose false env apps).1.commands name =
        appLastDef env app name) := by
  obtain ⟨h1, h2⟩ := getCommandsAux_nonstrict quiet verbose env apps ⟨[], [], []⟩ h
  have hget : ∀ name,
      dictGet (get_commands quiet verbose false env apps).1.commands name =
        lastDefIn env apps name := by
    intro name
    rw [get_commands, h2 name]
    simp [dictGet, orOpt_none_right]
  refine ⟨h1, fun name => ?_, hget, fun name pre post app happs hname hpost => ?_⟩
  · rw [dictMem, hget name, lastDefIn_isSome]
  · rw [hget name, happs, lastDefIn_last_app env pre post app name hname hpost]

/-- Witness for C1: three apps where `alpha` and `beta` both define a
command named "hello" (beta's under a different attribute name, via the
declared command name) and `gamma` has no commands module. -/
theorem get_commands_nonstrict_merge_witness :
    ((get_commands false false false
        (fun m =>
          if m = "alpha.commands" then
            ImportResult.ok [("hello", AttrVal.cmd ⟨some "hello", 1⟩)]
          else if m = "beta.commands" then
            ImportResult.ok [("hi", AttrVal.cmd ⟨some "hello", 2⟩)]
          else ImportResult.exn (PyExc.importError ("No module named '" ++ m ++ "'")))
        ["alpha", "beta", "gamma"]).2 = none) ∧
    (dictGet (get_commands false false false
        (fun m =>
          if m = "alpha.commands" then
            ImportResult.ok [("hello", AttrVal.cmd ⟨some "hello", 1⟩)]
          else if m = "beta.commands" then
            ImportResult.ok [("hi", AttrVal.cmd ⟨some "hello", 2⟩)]
          else ImportResult.exn (PyExc.importError ("No module named '" ++ m ++ "'")))
        ["alpha", "beta", "gamma"]).1.commands "hello" = some ⟨some "hello", 2⟩) := by
  have hmain := get_commands_nonstrict_merge false false
    (fun m =>
      if m = "alpha.commands" then
        ImportResult.ok [("hello", AttrVal.cmd ⟨some "hello", 1⟩)]
      else if m = "beta.commands" then
        ImportResult.ok [("hi", AttrVal.cmd ⟨some "hello", 2⟩)]
      else ImportResult.exn (PyExc.importError ("No module named '" ++ m ++ "'")))
    ["alpha", "beta", "gamma"] (by decide)
  refine ⟨hmain.1, ?_⟩
  rw [hmain.2.2.2 "hello" ["alpha"] ["gamma"] "beta" rfl (by decide) (by decide)]
  decide

/-- C8: `resolve_theme` is total; `None`, the empty string and any name whose
normalized form is not registered resolve to `DEFAULT_THEME`; any name whose
normalized (stripped, lowercased) form is registered resolves to exactly the
registered theme, in particular `"dark"` yields `DARK_THEME`. -/
theorem resolve_theme_fallback_and_exact :
    (resolve_theme none = DEFAULT_THEME) ∧
    (resolve_theme (some "") = DEFAULT_THEME) ∧
    (∀ s : String, dictGet THEMES (pyLower (pyStrip s)) = none →
      resolve_theme (some s) = DEFAULT_THEME) ∧
    (∀ (s : String) (t : Theme), s ≠ "" →
      dictGet THEMES (pyLower (pyStrip s)) = some t →
      resolve_theme (some s) = t) ∧
    (resolve_theme (some "dark") = DARK_THEME) := by
  refine ⟨rfl, rfl, ?_, ?_, by decide⟩
  · intro s h
    by_cases hs : s = ""
    · simp [resolve_theme, hs]
    · simp [resolve_theme, hs, h]
  · intro s t hs h
    simp [resolve_theme, hs, h]

/-- Witness for C8: the theorem applied at the mixed-case, padded name
`" Dark "`, whose normalized form is the registered `"dark"`. -/
theorem resolve_theme_fallback_and_exact_witness :
    resolve_theme (some " Dark ") = DARK_THEME :=
  resolve_theme_fallback_and_exact.2.2.2.1 " Dark " DARK_THEME (by decide) (by decide)

/-! ## Substring facts and the discovery loop split -/

theorem prefAux_self_append (p y : List Char) : prefAux p (p ++ y) = true := by
  induction p with
  | nil => rfl
  | cons a ps ih => simp [prefAux, ih]

theorem infixAux_self_append (p y : List Char) : infixAux p (p ++ y) = true := by
  cases p with
  | nil => cases y <;> simp [infixAux, prefAux]
  | cons a ps => simp [infixAux, prefAux, prefAux_self_append]

theorem infixAux_append_left (p x l : List Char) (h : infixAux p l = true) :
    infixAux p (x ++ l) = true := by
  induction x with
  | nil => simpa using h
  | cons b t ih =>
      simp only [List.cons_append, infixAux, Bool.or_eq_true]
      exact Or.inr ih

theorem isSubOf_middle (x p y : String) : isSubOf p (x ++ p ++ y) = true := by
  unfold isSubOf
  have h : (x ++ p ++ y).toList = x.toList ++ (p.toList ++ y.toList) := by
    show (x ++ p ++ y).data = x.data ++ (p.data ++ y.data)
    rw [String.data_append, String.data_append, List.append_assoc]
  rw [h]
  exact infixAux_append_left _ _ _ (infixAux_self_append _ _)

theorem getCommandsAux_append (quiet verbose strict : Bool) (env : ImportEnv)
    (xs ys : List String) (st : LoaderState) :
    getCommandsAux quiet verbose strict env (xs ++ ys) st =
      match getCommandsAux quiet verbose strict env xs st with
      | (st', none) => getCommandsAux quiet verbose strict env ys st'
      | (st', some e) => (st', some e) := by
  induction xs generalizing st with
  | nil => simp [getCommandsAux]
  | cons a rest ih =>
      show getCommandsAux quiet verbose strict env (a :: (rest ++ ys)) st = _
      simp only [getCommandsAux]
      rcases hP : processApp quiet verbose strict env st a with ⟨stp, ep⟩
      cases ep with
      | none => exact ih stp
      | some e => rfl

theorem processApp_missing_nonstrict (quiet verbose : Bool) (env : ImportEnv)
    (st : LoaderState) (app msg : String)
    (henv : env (app ++ ".commands") = ImportResult.exn (PyExc.importError msg))
    (hsub : isSubOf ("No module named '" ++ (app ++ ".commands") ++ "'") msg = true) :
    processApp quiet verbose false env st app =
      (loggerWarn quiet st ("No commands.py found for app '" ++ app ++ "'. Skipping."),
        none) := by
  simp [processApp, henv, hsub]

theorem processApp_missing_strict (quiet verbose : Bool) (env : ImportEnv)
    (st : LoaderState) (app msg : String)
    (henv : env (app ++ ".commands") = ImportResult.exn (PyExc.importError msg))
    (hsub : isSubOf ("No module named '" ++ (app ++ ".commands") ++ "'") msg = true) :
    processApp quiet verbose true env st app =
      (st, some (LoaderExc.py (PyExc.importError
        ("No commands.py found for app '" ++ app ++ "'. Skipping.")))) := by
  simp [processApp, henv, hsub]

theorem processApp_importError_nonstrict (quiet verbose : Bool) (env : ImportEnv)
    (st : LoaderState) (app msg : String)
    (henv : env (app ++ ".commands") = ImportResult.exn (PyExc.importError msg))
    (hsub : isSubOf ("No module named '" ++ (app ++ ".commands") ++ "'") msg = false) :
    processApp quiet verbose false env st app =
      (loggerError
        (loggerError st ("Error importing " ++ (app ++ ".commands") ++ ": " ++ msg))
        (formatTraceback (PyExc.importError msg)), none) := by
  simp [processApp, henv, hsub]

theorem processApp_importError_strict (quiet verbose : Bool) (env : ImportEnv)
    (st : LoaderState) (app msg : String)
    (henv : env (app ++ ".commands") = ImportResult.exn (PyExc.importError msg))
    (hsub : isSubOf ("No module named '" ++ (app ++ ".commands") ++ "'") msg = false) :
    processApp quiet verbose true env st app =
      (st, some (LoaderExc.py (PyExc.importError msg))) := by
  simp [processApp, henv, hsub]

/-- C3: when an app's conventional commands submodule is missing (the
failed import raises an `ImportError` whose message contains `No module named
'<app>.commands'`), default mode skips the app — the returned mapping and
the outcome are the ones of the same run without that app — and prints a
warning whose text contains the app's name (once discovery reaches the
app); strict mode instead raises an `ImportError` at that app. -/
theorem get_commands_missing_module (verbose : Bool) (env : ImportEnv)
    (pre post : List String) (app msg : String)
    (henv : env (app ++ ".commands") = ImportResult.exn (PyExc.importError msg))
    (hsub : isSubOf ("No module named '" ++ (app ++ ".commands") ++ "'") msg = true) :
    ((get_commands false verbose false env (pre ++ app :: post)).1.commands =
      (get_commands false verbose false env (pre ++ post)).1.commands) ∧
    ((get_commands false verbose false env (pre ++ app :: post)).2 =
      (get_commands false verbose false env (pre ++ post)).2) ∧
    (isSubOf app ("No commands.py found for app '" ++ app ++ "'. Skipping.") = true) ∧
    (∀ stp : LoaderState,
      getCommandsAux false verbose false env pre ⟨[], [], []⟩ = (stp, none) →
      LogLine.warn ("No commands.py found for app '" ++ app ++ "'. Skipping.")
        ∈ (get_commands false verbose false env (pre ++ app :: post)).1.lines) ∧
    (∀ stp : LoaderState,
      getCommandsAux false verbose true env pre ⟨[], [], []⟩ = (stp, none) →
      get_commands false verbose true env (pre ++ app :: post) =
        (stp, some (LoaderExc.py (PyExc.importError
          ("No commands.py found for app '" ++ app ++ "'. Skipping."))))) := by
  have haux : ∀ stp : LoaderState,
      getCommandsAux false verbose false env (app :: post) stp =
        getCommandsAux false verbose false env post
          ⟨stp.commands, stp.sources, stp.lines ++
            [LogLine.warn ("No commands.py found for app '" ++ app ++ "'. Skipping.")]⟩ := by
    intro stp
    simp only [getCommandsAux]
    rw [processApp_missing_nonstrict false verbose env stp app msg henv hsub]
    rfl
  refine ⟨?_, ?_, ?_, ?_, ?_⟩
  · simp only [get_commands]
    rw [getCommandsAux_append, getCommandsAux_append]
    rcases hpre : getCommandsAux false verbose false env pre ⟨[], [], []⟩ with ⟨stp, ep⟩
    obtain ⟨pc, ps, pl⟩ := stp
    cases ep with
    | some e => rfl
    | none =>
        simp only []
        rw [haux ⟨pc, ps, pl⟩]
        rw [getCommandsAux_lines false verbose false env post pc ps
            (pl ++ [LogLine.warn ("No commands.py found for app '" ++ app ++ "'. Skipping.")])]
        rw [getCommandsAux_lines false verbose false env post pc ps pl]
  · simp only [get_commands]
    rw [getCommandsAux_append, getCommandsAux_append]
    rcases hpre : getCommandsAux false verbose false env pre ⟨[], [], []⟩ with ⟨stp, ep⟩
    obtain ⟨pc, ps, pl⟩ := stp
    cases ep with
    | some e => rfl
    | none =>
        simp only []
        rw [haux ⟨pc, ps, pl⟩]
        rw [getCommandsAux_lines false verbose false env post pc ps
            (pl ++ [LogLine.warn ("No commands.py found for app '" ++ app ++ "'. Skipping.")])]
        rw [getCommandsAux_lines false verbose false env post pc ps pl]
  · exact isSubOf_middle "No commands.py found for app '" app "'. Skipping."
  · intro stp hpre
    simp only [get_commands]
    rw [getCommandsAux_append, hpre]
    obtain ⟨pc, ps, pl⟩ := stp
    simp only []
    rw [haux ⟨pc, ps, pl⟩]
    rw [getCommandsAux_lines false verbose false env post pc ps
        (pl ++ [LogLine.warn ("No commands.py found for app '" ++ app ++ "'. Skipping.")])]
    simp [List.mem_append]
  · intro stp hpre
    simp only [get_commands]
    rw [getCommandsAux_append, hpre]
    simp only [getCommandsAux]
    rw [processApp_missing_strict false verbose env stp app msg henv hsub]

/-- Witness for C3: one healthy app `good` followed by `miss`, whose
commands module is missing; default mode prints the skip warning, strict
mode raises the `ImportError`. -/
theorem get_commands_missing_module_witness :
    (LogLine.warn "No commands.py found for app 'miss'. Skipping."
      ∈ (get_commands false false false
          (fun m =>
            if m = "good.commands" then
              ImportResult.ok [("hello", AttrVal.cmd ⟨some "hello", 1⟩)]
            else ImportResult.exn (PyExc.importError ("No module named '" ++ m ++ "'")))
          (["good"] ++ "miss" :: [])).1.lines) ∧
    (get_commands false false true
        (fun m =>
          if m = "good.commands" then
            ImportResult.ok [("hello", AttrVal.cmd ⟨some "hello", 1⟩)]
          else ImportResult.exn (PyExc.importError ("No module named '" ++ m ++ "'")))
        (["good"] ++ "miss" :: []) =
      (⟨[("hello", ⟨some "hello", 1⟩)], [("hello", ("good.commands", "hello"))], []⟩,
        some (LoaderExc.py (PyExc.importError
          "No commands.py found for app 'miss'. Skipping.")))) := by
  have h := get_commands_missing_module false
    (fun m =>
      if m = "good.commands" then
        ImportResult.ok [("hello", AttrVal.cmd ⟨some "hello", 1⟩)]
      else ImportResult.exn (PyExc.importError ("No module named '" ++ m ++ "'")))
    ["good"] [] "miss" "No module named 'miss.commands'" (by decide) (by decide)
  exact ⟨h.2.2.2.1 ⟨[("hello", ⟨some "hello", 1⟩)],
      [("hello", ("good.commands", "hello"))], []⟩ (by decide),
    h.2.2.2.2 ⟨[("hello", ⟨some "hello", 1⟩)],
      [("hello", ("good.commands", "hello"))], []⟩ (by decide)⟩

/-- C4 (amended): when an app's commands module import raises an
`ImportError` that is NOT the missing-submodule case, default mode prints
two error lines — `Error importing <module>: <msg>` and the traceback —
excludes the app (mapping and outcome equal the run without it) and
continues; strict mode re-raises the original `ImportError`. -/
theorem get_commands_import_error (verbose : Bool) (env : ImportEnv)
    (pre post : List String) (app msg : String)
    (henv : env (app ++ ".commands") = ImportResult.exn (PyExc.importError msg))
    (hsub : isSubOf ("No module named '" ++ (app ++ ".commands") ++ "'") msg = false) :
    ((get_commands false verbose false env (pre ++ app :: post)).1.commands =
      (get_commands false verbose false env (pre ++ post)).1.commands) ∧
    ((get_commands false verbose false env (pre ++ app :: post)).2 =
      (get_commands false verbose false env (pre ++ post)).2) ∧
    (∀ stp : LoaderState,
      getCommandsAux false verbose false env pre ⟨[], [], []⟩ = (stp, none) →
      LogLine.error ("Error importing " ++ (app ++ ".commands") ++ ": " ++ msg)
        ∈ (get_commands false verbose false env (pre ++ app :: post)).1.lines ∧
      LogLine.error (formatTraceback (PyExc.importError msg))
        ∈ (get_commands false verbose false env (pre ++ app :: post)).1.lines) ∧
    (∀ stp : LoaderState,
      getCommandsAux false verbose true env pre ⟨[], [], []⟩ = (stp, none) →
      get_commands false verbose true env (pre ++ app :: post) =
        (stp, some (LoaderExc.py (PyExc.importError msg)))) := by
  have haux : ∀ stp : LoaderState,
      getCommandsAux false verbose false env (app :: post) stp =
        getCommandsAux false verbose false env post
          ⟨stp.commands, stp.sources,
            (stp.lines ++ [LogLine.error ("Error importing " ++ (app ++ ".commands") ++ ": " ++ msg)])
              ++ [LogLine.error (formatTraceback (PyExc.importError msg))]⟩ := by
    intro stp
    simp only [getCommandsAux]
    rw [processApp_importError_nonstrict false verbose env stp app msg henv hsub]
    rfl
  refine ⟨?_, ?_, ?_, ?_⟩
  · simp only [get_commands]
    rw [getCommandsAux_append, getCommandsAux_append]
    rcases hpre : getCommandsAux false verbose false env pre ⟨[], [], []⟩ with ⟨stp, ep⟩
    obtain ⟨pc, ps, pl⟩ := stp
    cases ep with
    | some e => rfl
    | none =>
        simp only []
        rw [haux ⟨pc, ps, pl⟩]
        rw [getCommandsAux_lines false verbose false env post pc ps
            ((pl ++ [LogLine.error ("Error importing " ++ (app ++ ".commands") ++ ": " ++ msg)])
              ++ [LogLine.error (formatTraceback (PyExc.importError msg))])]
        rw [getCommandsAux_lines false verbose false env post pc ps pl]
  · simp only [get_commands]
    rw [getCommandsAux_append, getCommandsAux_append]
    rcases hpre : getCommandsAux false verbose false env pre ⟨[], [], []⟩ with ⟨stp, ep⟩
    obtain ⟨pc, ps, pl⟩ := stp
    cases ep with
    | some e => rfl
    | none =>
        simp only []
        rw [haux ⟨pc, ps, pl⟩]
        rw [getCommandsAux_lines false verbose false env post pc ps
            ((pl ++ [LogLine.error ("Error importing " ++ (app ++ ".commands") ++ ": " ++ msg)])
              ++ [LogLine.error (formatTraceback (PyExc.importError msg))])]
        rw [getCommandsAux_lines false verbose false env post pc ps pl]
  · intro stp hpre
    simp only [get_commands]
    rw [getCommandsAux_append, hpre]
    obtain ⟨pc, ps, pl⟩ := stp
    simp only []
    rw [haux ⟨pc, ps, pl⟩]
    rw [getCommandsAux_lines false verbose false env post pc ps
        ((pl ++ [LogLine.error ("Error importing " ++ (app ++ ".commands") ++ ": " ++ msg)])
          ++ [LogLine.error (formatTraceback (PyExc.importError msg))])]
    constructor <;> simp [List.mem_append]
  · intro stp hpre
    simp only [get_commands]
    rw [getCommandsAux_append, hpre]
    simp only [getCommandsAux]
    rw [processApp_importError_strict false verbose env stp app msg henv hsub]

/-- Counterexample for C4 as stated: an app whose commands module raises
an exception that is not an `ImportError` (here a plain runtime error
`boom`, exactly the spec's "runtime error inside the app's own code"
example).  Default (non-strict) mode does NOT log it and continue — the
`except ImportError` clause cannot catch it, so `get_commands` aborts
with the exception, returns no mapping, and prints nothing. -/
theorem get_commands_other_error_counterexample :
    get_commands false false false
      (fun _ => ImportResult.exn (PyExc.otherError "boom")) ["badapp"] =
      (⟨[], [], []⟩, some (LoaderExc.py (PyExc.otherError "boom"))) := by
  decide

/-- Witness for C4 (amended): app `broken` raises
`ImportError("cannot import name missing_thing")` inside its module;
default mode logs the two error lines and continues past it. -/
theorem get_commands_import_error_witness :
    (LogLine.error "Error importing broken.commands: cannot import name missing_thing"
      ∈ (get_commands false false false
          (fun m =>
            if m = "broken.commands" then
              ImportResult.exn (PyExc.importError "cannot import name missing_thing")
            else ImportResult.exn (PyExc.importError ("No module named '" ++ m ++ "'")))
          ([] ++ "broken" :: [])).1.lines) ∧
    (get_commands false false true
        (fun m =>
          if m = "broken.commands" then
            ImportResult.exn (PyExc.importError "cannot import name missing_thing")
          else ImportResult.exn (PyExc.importError ("No module named '" ++ m ++ "'")))
        ([] ++ "broken" :: []) =
      (⟨[], [], []⟩, some (LoaderExc.py
        (PyExc.importError "cannot import name missing_thing")))) := by
  have h := get_commands_import_error false
    (fun m =>
      if m = "broken.commands" then
        ImportResult.exn (PyExc.importError "cannot import name missing_thing")
      else ImportResult.exn (PyExc.importError ("No module named '" ++ m ++ "'")))
    [] [] "broken" "cannot import name missing_thing" (by decide) (by decide)
  exact ⟨(h.2.2.1 ⟨[], [], []⟩ (by decide)).1, h.2.2.2 ⟨[], [], []⟩ (by decide)⟩

theorem isSubOf_via_data (p s : String) (x y : List Char)
    (h : s.data = x ++ (p.data ++ y)) : isSubOf p s = true := by
  show infixAux p.data s.data = true
  rw [h]
  exact infixAux_append_left _ _ _ (infixAux_self_append _ _)

/-- C2: two apps whose commands modules each bind one command resolving to
the same name `n`.  Default mode: the run returns normally, the mapping
binds `n` to the LATER app's command object, and exactly one warning is
printed — the duplicate message, which contains both the earlier and the
later `module:attribute` source locations.  Strict mode: the run aborts
with `DuplicateCommandNameError` carrying that same message, and no
mapping is returned. -/
theorem get_commands_duplicate_name (env : ImportEnv) (a1 a2 attr1 attr2 n : String)
    (c1 c2 : Cmd)
    (henv1 : env (a1 ++ ".commands") = ImportResult.ok [(attr1, AttrVal.cmd c1)])
    (henv2 : env (a2 ++ ".commands") = ImportResult.ok [(attr2, AttrVal.cmd c2)])
    (hres1 : resolveName c1 attr1 = n)
    (hres2 : resolveName c2 attr2 = n) :
    (get_commands false false false env [a1, a2] =
      (⟨[(n, c2)], [(n, (a2 ++ ".commands", attr2))],
        [LogLine.warn (duplicateMsg n (a1 ++ ".commands") attr1 (a2 ++ ".commands") attr2)]⟩,
       none)) ∧
    isSubOf ((a1 ++ ".commands") ++ ":" ++ attr1)
      (duplicateMsg n (a1 ++ ".commands") attr1 (a2 ++ ".commands") attr2) = true ∧
    isSubOf ((a2 ++ ".commands") ++ ":" ++ attr2)
      (duplicateMsg n (a1 ++ ".commands") attr1 (a2 ++ ".commands") attr2) = true ∧
    (get_commands false false true env [a1, a2] =
      (⟨[(n, c1)], [(n, (a1 ++ ".commands", attr1))], []⟩,
       some (LoaderExc.duplicateCommandName
         (duplicateMsg n (a1 ++ ".commands") attr1 (a2 ++ ".commands") attr2)))) := by
  have h1 : ∀ strict : Bool, processApp false false strict env ⟨[], [], []⟩ a1 =
      (⟨[(n, c1)], [(n, (a1 ++ ".commands", attr1))], []⟩, none) := by
    intro strict
    simp [processApp, henv1, loggerInfo, scanAttrs, hres1, dictMem, dictGet, dictInsert]
  have h2 : processApp false false false env
      ⟨[(n, c1)], [(n, (a1 ++ ".commands", attr1))], []⟩ a2 =
      (⟨[(n, c2)], [(n, (a2 ++ ".commands", attr2))],
        [LogLine.warn (duplicateMsg n (a1 ++ ".commands") attr1 (a2 ++ ".commands") attr2)]⟩,
       none) := by
    simp [processApp, henv2, loggerInfo, scanAttrs, hres2, dictMem, dictGet, dictInsert,
      loggerWarn, duplicateMsg]
  have h2s : processApp false false true env
      ⟨[(n, c1)], [(n, (a1 ++ ".commands", attr1))], []⟩ a2 =
      (⟨[(n, c1)], [(n, (a1 ++ ".commands", attr1))], []⟩,
       some (LoaderExc.duplicateCommandName
         (duplicateMsg n (a1 ++ ".commands") attr1 (a2 ++ ".commands") attr2))) := by
    simp [processApp, henv2, loggerInfo, scanAttrs, hres2, dictMem, dictGet, duplicateMsg]
  refine ⟨?_, ?_, ?_, ?_⟩
  · show getCommandsAux false false false env [a1, a2] ⟨[], [], []⟩ = _
    simp only [getCommandsAux]
    rw [h1 false]
    simp only []
    rw [h2]
  · apply isSubOf_via_data _ _
      ("Duplicate command name '" ++ n ++ "' discovered. Both '").data
      (("' and '" ++ (a2 ++ ".commands") ++ ":" ++ attr2
        ++ "' define it. Keeping the last one ('" ++ (a2 ++ ".commands") ++ ":" ++ attr2
        ++ "')." ).data)
    simp [duplicateMsg, String.data_append, List.append_assoc]
  · apply isSubOf_via_data _ _
      (("Duplicate command name '" ++ n ++ "' discovered. Both '" ++ (a1 ++ ".commands")
        ++ ":" ++ attr1 ++ "' and '").data)
      (("' define it. Keeping the last one ('" ++ (a2 ++ ".commands") ++ ":" ++ attr2
        ++ "')." ).data)
    simp [duplicateMsg, String.data_append, List.append_assoc]
  · show getCommandsAux false false true env [a1, a2] ⟨[], [], []⟩ = _
    simp only [getCommandsAux]
    rw [h1 true]
    simp only []
    rw [h2s]

/-- Witness for C2: `app1` and `app2` both declare a command named
`hello`; the merged dict binds it to app2's object and the one warning
names both sources; strict mode raises `DuplicateCommandNameError`. -/
theorem get_commands_duplicate_name_witness :
    (get_commands false false false
      (fun m =>
        if m = "app1.commands" then ImportResult.ok [("hello", AttrVal.cmd ⟨some "hello", 1⟩)]
        else if m = "app2.commands" then ImportResult.ok [("hello", AttrVal.cmd ⟨some "hello", 2⟩)]
        else ImportResult.exn (PyExc.importError ("No module named '" ++ m ++ "'")))
      ["app1", "app2"] =
      (⟨[("hello", ⟨some "hello", 2⟩)], [("hello", ("app2.commands", "hello"))],
        [LogLine.warn (duplicateMsg "hello" "app1.commands" "hello" "app2.commands" "hello")]⟩,
       none)) ∧
    (get_commands false false true
      (fun m =>
        if m = "app1.commands" then ImportResult.ok [("hello", AttrVal.cmd ⟨some "hello", 1⟩)]
        else if m = "app2.commands" then ImportResult.ok [("hello", AttrVal.cmd ⟨some "hello", 2⟩)]
        else ImportResult.exn (PyExc.importError ("No module named '" ++ m ++ "'")))
      ["app1", "app2"] =
      (⟨[("hello", ⟨some "hello", 1⟩)], [("hello", ("app1.commands", "hello"))], []⟩,
       some (LoaderExc.duplicateCommandName
         (duplicateMsg "hello" "app1.commands" "hello" "app2.commands" "hello")))) := by
  have h := get_commands_duplicate_name
    (fun m =>
      if m = "app1.commands" then ImportResult.ok [("hello", AttrVal.cmd ⟨some "hello", 1⟩)]
      else if m = "app2.commands" then ImportResult.ok [("hello", AttrVal.cmd ⟨some "hello", 2⟩)]
      else ImportResult.exn (PyExc.importError ("No module named '" ++ m ++ "'")))
    "app1" "app2" "hello" "hello" "hello" ⟨some "hello", 1⟩ ⟨some "hello", 2⟩
    (by decide) (by decide) (by decide) (by decide)
  exact ⟨h.1, h.2.2.2⟩

/-- Counterexample for C9 as stated: settings resolve fine (`INSTALLED_APPS
= ["myapp"]`) and strict-mode discovery raises its missing-commands-module
`ImportError` — but the entry point's `except ImportError` clause catches
it, stores it as `settings_error`, skips attaching commands and shows a
settings-error message, and the process returns normally instead of
terminating with a failure signal.  So a strict discovery error IS
swallowed, and the skip-with-error-message path is taken although settings
did not fail to resolve. -/
theorem executeLoaderStage_swallow_counterexample :
    executeLoaderStage false false true (Except.ok ["myapp"])
      (fun m => ImportResult.exn (PyExc.importError ("No module named '" ++ m ++ "'"))) =
      ExecOutcome.settingsErrorCaught
        "No commands.py found for app 'myapp'. Skipping." [] := by
  decide

/-- C9 (amended): how loader-stage exceptions really reach the entry
point.  A settings-resolution failure is caught and reported as a settings
error, skipping command attachment.  A strict-mode missing-commands-module
abort — an `ImportError` — is caught by the same `except ImportError`
clause and ALSO reported as a settings error, with no failure signal.  In
general any `ImportError`-class abort of `get_commands` lands on the
settings-error path, while `DuplicateCommandNameError` (a `RuntimeError`)
and non-`ImportError` exceptions propagate uncaught, terminating the
process with a traceback and a nonzero exit status. -/
theorem executeLoaderStage_dispatch (verbose : Bool) (env : ImportEnv)
    (pre post apps : List String) (app msg msgSettings : String) :
    (executeLoaderStage false verbose true (Except.error msgSettings) env =
      ExecOutcome.settingsErrorCaught msgSettings []) ∧
    (env (app ++ ".commands") = ImportResult.exn (PyExc.importError msg) →
      isSubOf ("No module named '" ++ (app ++ ".commands") ++ "'") msg = true →
      ∀ stp : LoaderState,
        getCommandsAux false verbose true env pre ⟨[], [], []⟩ = (stp, none) →
        executeLoaderStage false verbose true (Except.ok (pre ++ app :: post)) env =
          ExecOutcome.settingsErrorCaught
            ("No commands.py found for app '" ++ app ++ "'. Skipping.") stp.lines) ∧
    (∀ (st : LoaderState) (m : String),
      get_commands false verbose true env apps = (st, some (LoaderExc.duplicateCommandName m)) →
      executeLoaderStage false verbose true (Except.ok apps) env =
        ExecOutcome.uncaughtException (LoaderExc.duplicateCommandName m) st.lines) ∧
    (∀ (st : LoaderState) (m : String),
      get_commands false verbose true env apps = (st, some (LoaderExc.py (PyExc.otherError m))) →
      executeLoaderStage false verbose true (Except.ok apps) env =
        ExecOutcome.uncaughtException (LoaderExc.py (PyExc.otherError m)) st.lines) ∧
    (∀ (st : LoaderState) (m : String),
      get_commands false verbose true env apps = (st, some (LoaderExc.py (PyExc.importError m))) →
      executeLoaderStage false verbose true (Except.ok apps) env =
        ExecOutcome.settingsErrorCaught m st.lines) := by
  refine ⟨rfl, ?_, ?_, ?_, ?_⟩
  · intro henv hsub stp hpre
    have hrun : get_commands false verbose true env (pre ++ app :: post) =
        (stp, some (LoaderExc.py (PyExc.importError
          ("No commands.py found for app '" ++ app ++ "'. Skipping.")))) := by
      simp only [get_commands]
      rw [getCommandsAux_append, hpre]
      simp only [getCommandsAux]
      rw [processApp_missing_strict false verbose env stp app msg henv hsub]
    simp only [executeLoaderStage]
    rw [hrun]
  · intro st m hrun
    simp only [executeLoaderStage]
    rw [hrun]
  · intro st m hrun
    simp only [executeLoaderStage]
    rw [hrun]
  · intro st m hrun
    simp only [executeLoaderStage]
    rw [hrun]

/-- Witness for C9 (amended): the missing-module swallow at `miss` (with
no preceding apps) and, separately for the propagating case, a duplicate
between `app1` and `app2` raising `DuplicateCommandNameError` uncaught. -/
theorem executeLoaderStage_dispatch_witness :
    (executeLoaderStage false false true
      (Except.ok ([] ++ "miss" :: []))
      (fun m => ImportResult.exn (PyExc.importError ("No module named '" ++ m ++ "'"))) =
      ExecOutcome.settingsErrorCaught
        "No commands.py found for app 'miss'. Skipping." []) ∧
    (executeLoaderStage false false true
      (Except.ok ["app1", "app2"])
      (fun m =>
        if m = "app1.commands" then ImportResult.ok [("hello", AttrVal.cmd ⟨some "hello", 1⟩)]
        else if m = "app2.commands" then ImportResult.ok [("hello", AttrVal.cmd ⟨some "hello", 2⟩)]
        else ImportResult.exn (PyExc.importError ("No module named '" ++ m ++ "'"))) =
      ExecOutcome.uncaughtException
        (LoaderExc.duplicateCommandName
          (duplicateMsg "hello" "app1.commands" "hello" "app2.commands" "hello")) []) := by
  constructor
  · exact (executeLoaderStage_dispatch false
      (fun m => ImportResult.exn (PyExc.importError ("No module named '" ++ m ++ "'")))
      [] [] [] "miss" "No module named 'miss.commands'" "unused").2.1
      (by decide) (by decide) ⟨[], [], []⟩ (by decide)
  · exact (executeLoaderStage_dispatch false
      (fun m =>
        if m = "app1.commands" then ImportResult.ok [("hello", AttrVal.cmd ⟨some "hello", 1⟩)]
        else if m = "app2.commands" then ImportResult.ok [("hello", AttrVal.cmd ⟨some "hello", 2⟩)]
        else ImportResult.exn (PyExc.importError ("No module named '" ++ m ++ "'")))
      [] [] ["app1", "app2"] "unused" "unused" "unused").2.2.1
      ⟨[("hello", ⟨some "hello", 1⟩)], [("hello", ("app1.commands", "hello"))], []⟩
      (duplicateMsg "hello" "app1.commands" "hello" "app2.commands" "hello")
      (by decide)

/-- C6: `Settings._setup` resolves the configuration module name in this
order.  (1) A truthy explicit `YOTTA_SETTINGS_MODULE` wins and the
environment is unchanged.  (2) Otherwise a truthy `YOTTA_ENV` shorthand
`v` yields the module name `"settings_" ++ v`, and that name is written
back into `YOTTA_SETTINGS_MODULE`, observably.  (3) Otherwise resolution
fails with an `ImportError` whose message names `YOTTA_SETTINGS_MODULE`
(so any attribute access, which triggers `_setup` while `_wrapped is
None`, fails with that configuration error). -/
theorem setupResolve_order (environ : EnvMap) :
    (∀ m : String, dictGet environ "YOTTA_SETTINGS_MODULE" = some m → m ≠ "" →
      setupResolve environ = Except.ok (m, environ)) ∧
    (∀ v : String, pyTruthy (dictGet environ "YOTTA_SETTINGS_MODULE") = none →
      dictGet environ "YOTTA_ENV" = some v → v ≠ "" →
      setupResolve environ = Except.ok ("settings_" ++ v,
        dictInsert environ "YOTTA_SETTINGS_MODULE" ("settings_" ++ v)) ∧
      dictGet (dictInsert environ "YOTTA_SETTINGS_MODULE" ("settings_" ++ v))
        "YOTTA_SETTINGS_MODULE" = some ("settings_" ++ v)) ∧
    (pyTruthy (dictGet environ "YOTTA_SETTINGS_MODULE") = none →
      pyTruthy (dictGet environ "YOTTA_ENV") = none →
      ∃ msg : String, setupResolve environ = Except.error msg ∧
        isSubOf "YOTTA_SETTINGS_MODULE" msg = true) := by
  refine ⟨?_, ?_, ?_⟩
  · intro m hm hne
    simp [setupResolve, pyTruthy, hm, hne]
  · intro v hsm hv hne
    refine ⟨?_, dictGet_dictInsert_self _ _ _⟩
    simp only [setupResolve]
    rw [hsm, hv]
    simp [pyTruthy, hne]
  · intro hsm henv
    refine ⟨"YOTTA_SETTINGS_MODULE is not defined. Set it in your environment, in a .env/.env.local file, or via manage.py before running commands.", ?_, by decide⟩
    simp only [setupResolve]
    rw [hsm, henv]

/-- Witness for C6: with only `YOTTA_ENV=testenv` set, the proxy derives
`settings_testenv` and writes it back into `YOTTA_SETTINGS_MODULE`. -/
theorem setupResolve_order_witness :
    setupResolve [("YOTTA_ENV", "testenv")] =
      Except.ok ("settings_testenv",
        dictInsert [("YOTTA_ENV", "testenv")] "YOTTA_SETTINGS_MODULE" "settings_testenv") ∧
    dictGet (dictInsert [("YOTTA_ENV", "testenv")] "YOTTA_SETTINGS_MODULE" "settings_testenv")
      "YOTTA_SETTINGS_MODULE" = some "settings_testenv" :=
  (setupResolve_order [("YOTTA_ENV", "testenv")]).2.1 "testenv"
    (by decide) (by decide) (by decide)

/-! ## Settings proxy: environment-file semantics -/

theorem dictGet_eq_none_of_not_mem {α : Type} (d : List (String × α)) (k : String)
    (h : dictMem d k = false) : dictGet d k = none := by
  unfold dictMem at h
  cases hd : dictGet d k with
  | none => rfl
  | some v => rw [hd] at h; exact absurd h (by simp)

theorem dictGet_dictSetdefault_self {α : Type} (d : List (String × α)) (k : String) (v : α) :
    dictGet (dictSetdefault d k v) k = orOpt (dictGet d k) (some v) := by
  unfold dictSetdefault
  by_cases h : dictMem d k = true
  · rw [if_pos h]
    unfold dictMem at h
    cases hd : dictGet d k with
    | none => rw [hd] at h; exact absurd h (by simp)
    | some x => rfl
  · have h' : dictMem d k = false := by revert h; cases dictMem d k <;> simp
    rw [if_neg h]
    rw [dictGet_dictInsert_self, dictGet_eq_none_of_not_mem d k h']
    rfl

theorem dictGet_dictSetdefault_ne {α : Type} (d : List (String × α)) (k k' : String) (v : α)
    (h : k ≠ k') : dictGet (dictSetdefault d k v) k' = dictGet d k' := by
  unfold dictSetdefault
  by_cases hm : dictMem d k = true
  · rw [if_pos hm]
  · rw [if_neg hm, dictGet_dictInsert_ne d k k' v h]

theorem envEntries_cons (line : String) (rest : List String) :
    envEntries (line :: rest) =
      match parseEnvLine line with
      | none => envEntries rest
      | some kv => kv :: envEntries rest := by
  unfold envEntries
  rw [List.filterMap_cons]
  cases parseEnvLine line <;> rfl

theorem processEnvFile_cons_true (acc : EnvMap × List (String × String))
    (line : String) (rest : List String) :
    processEnvFile true acc (line :: rest) =
      processEnvFile true
        (match parseEnvLine line with
         | none => acc
         | some kv => (dictInsert acc.1 kv.1 kv.2, dictInsert acc.2 kv.1 kv.2)) rest := by
  simp [processEnvFile]

theorem processEnvFile_cons_false (acc : EnvMap × List (String × String))
    (line : String) (rest : List String) :
    processEnvFile false acc (line :: rest) =
      processEnvFile false
        (match parseEnvLine line with
         | none => acc
         | some kv => (dictSetdefault acc.1 kv.1 kv.2, dictInsert acc.2 kv.1 kv.2)) rest := by
  simp [processEnvFile]

theorem processEnvFile_local_get (lines : List String)
    (acc : EnvMap × List (String × String)) (k : String) :
    dictGet (processEnvFile true acc lines).1 k =
      orOpt (lastVal (envEntries lines) k) (dictGet acc.1 k) := by
  induction lines generalizing acc with
  | nil => simp [processEnvFile, envEntries, lastVal, orOpt]
  | cons line rest ih =>
      rw [envEntries_cons, processEnvFile_cons_true]
      cases hp : parseEnvLine line with
      | none => exact ih acc
      | some kv =>
          rw [ih]
          by_cases hk : kv.1 = k
          · subst hk
            rw [dictGet_dictInsert_self]
            simp only [lastVal, if_pos rfl]
            rw [orOpt_assoc]
            simp [orOpt_some]
          · rw [dictGet_dictInsert_ne _ _ _ _ hk]
            simp only [lastVal, if_neg hk]
            rw [orOpt_none_right]

theorem processEnvFile_env_get (lines : List String)
    (acc : EnvMap × List (String × String)) (k : String) :
    dictGet (processEnvFile false acc lines).1 k =
      orOpt (dictGet acc.1 k) (firstVal (envEntries lines) k) := by
  induction lines generalizing acc with
  | nil => simp [processEnvFile, envEntries, firstVal, orOpt_none_right]
  | cons line rest ih =>
      rw [envEntries_cons, processEnvFile_cons_false]
      cases hp : parseEnvLine line with
      | none => exact ih acc
      | some kv =>
          rw [ih]
          by_cases hk : kv.1 = k
          · subst hk
            rw [dictGet_dictSetdefault_self]
            simp only [firstVal, if_pos rfl]
            cases dictGet acc.1 kv.1 <;> rfl
          · rw [dictGet_dictSetdefault_ne _ _ _ _ hk]
            simp only [firstVal, if_neg hk]

theorem pyStripChar_wrap (value : String) (hne : value ≠ "")
    (hh : value.toList.head? ≠ some dquoteChar)
    (hl : value.toList.getLast? ≠ some dquoteChar) :
    pyStripChar dquoteChar ("\"" ++ value ++ "\"") = value := by
  obtain ⟨a, t, hv⟩ : ∃ a t, value.toList = a :: t := by
    cases hvl : value.toList with
    | nil =>
        exfalso
        apply hne
        cases value with
        | mk d =>
            have : d = [] := hvl
            rw [this]
    | cons a t => exact ⟨a, t, rfl⟩
  have hdata : ("\"" ++ value ++ "\"").toList = '"' :: (value.toList ++ ['"']) := by
    show ("\"" ++ value ++ "\"").data = '"' :: (value.data ++ ['"'])
    rw [String.data_append, String.data_append]
    rfl
  unfold pyStripChar dropEnds
  rw [hdata, hv]
  have hq : ('"' == dquoteChar) = true := by decide
  have ha : (a == dquoteChar) = false := by
    have : a ≠ dquoteChar := by
      intro hcon
      exact hh (by rw [hv, hcon]; rfl)
    revert this
    cases hab : a == dquoteChar
    · intro _; rfl
    · intro hcon; exact absurd (eq_of_beq hab) hcon
  rw [List.dropWhile_cons, hq]
  simp only [if_true]
  rw [show (a :: t) ++ ['"'] = a :: (t ++ ['"']) from rfl]
  rw [List.dropWhile_cons, ha]
  simp only [Bool.false_eq_true, if_false]
  obtain ⟨b, r, hr⟩ : ∃ b r, (a :: (t ++ ['"'])).reverse = b :: r := by
    cases hrev : (a :: (t ++ ['"'])).reverse with
    | nil => exact absurd hrev (by simp)
    | cons b r => exact ⟨b, r, rfl⟩
  have hrev2 : (a :: (t ++ ['"'])).reverse = '"' :: (a :: t).reverse := by
    rw [show a :: (t ++ ['"']) = (a :: t) ++ ['"'] from rfl, List.reverse_append]
    rfl
  rw [hrev2]
  rw [List.dropWhile_cons, hq]
  simp only [if_true]
  obtain ⟨b2, r2, hr2⟩ : ∃ b2 r2, (a :: t).reverse = b2 :: r2 := by
    cases hrev : (a :: t).reverse with
    | nil => exact absurd hrev (by simp)
    | cons b2 r2 => exact ⟨b2, r2, rfl⟩
  have hb2 : (b2 == dquoteChar) = false := by
    have hlast : value.toList.getLast? = some b2 := by
      rw [hv, ← List.head?_reverse, hr2]
      rfl
    have : b2 ≠ dquoteChar := by
      intro hcon
      exact hl (by rw [hlast, hcon])
    revert this
    cases hab : b2 == dquoteChar
    · intro _; rfl
    · intro hcon; exact absurd (eq_of_beq hab) hcon
  rw [hr2, List.dropWhile_cons, hb2]
  simp only [Bool.false_eq_true, if_false]
  rw [← hr2, List.reverse_reverse, ← hv]
  cases value with
  | mk d => rfl

/-- C7: `_load_env` processes the two conventional files once per
instance.  With the `_env_loaded` latch initially unset: the latch is set;
any later call returns the state unchanged with an empty dict (no
re-reading, no variable changes); and every variable's final value is,
in order of precedence, the last `.env.local` entry for it (the override
file always overwrites), else its pre-existing OS value (the `.env` file
only fills absent variables), else the first `.env` entry for it.  Lines
that strip to nothing, start with `#`, or lack `=` are ignored, and a
double-quote-wrapped value has its surrounding quotes stripped. -/
theorem load_env_spec (st : SettingsState) (f1 f2 : List String)
    (h : st.env_loaded = false) :
    ((load_env (some f1, some f2) st).1.env_loaded = true) ∧
    (∀ fs' : Option (List String) × Option (List String),
      load_env fs' (load_env (some f1, some f2) st).1 =
        ((load_env (some f1, some f2) st).1, [])) ∧
    (∀ k, dictGet (load_env (some f1, some f2) st).1.environ k =
      orOpt (lastVal (envEntries f2) k)
        (orOpt (dictGet st.environ k) (firstVal (envEntries f1) k))) ∧
    (∀ line, (pyStrip line = "" ∨ pyStartswith (pyStrip line) "#" = true ∨
        hasEqChar (pyStrip line) = false) → parseEnvLine line = none) ∧
    (∀ value : String, value ≠ "" →
      value.toList.head? ≠ some dquoteChar →
      value.toList.getLast? ≠ some dquoteChar →
      pyStripChar dquoteChar ("\"" ++ value ++ "\"") = value) := by
  have hrun : load_env (some f1, some f2) st =
      ({ environ := (processEnvFile true (processEnvFile false (st.environ, []) f1) f2).1,
         env_loaded := true,
         debug_enabled := getBoolEnv
           (processEnvFile true (processEnvFile false (st.environ, []) f1) f2).1
           "YOTTA_DEBUG" false },
       (processEnvFile true (processEnvFile false (st.environ, []) f1) f2).2) := by
    simp only [load_env, h]
    simp
  refine ⟨?_, ?_, ?_, ?_, ?_⟩
  · rw [hrun]
  · intro fs'
    rw [hrun]
    simp [load_env]
  · intro k
    rw [hrun]
    show dictGet (processEnvFile true (processEnvFile false (st.environ, []) f1) f2).1 k = _
    rw [processEnvFile_local_get, processEnvFile_env_get]
  · intro line hcase
    unfold parseEnvLine
    rcases hcase with hc | hc | hc
    · simp [hc]
    · simp [hc]
    · simp [hc]
  · exact pyStripChar_wrap

/-- Witness for C7: an OS variable `KEEP` survives a `.env` entry for it,
`FILL` is filled from `.env` with its quotes stripped, `OVER` is
overridden by `.env.local`, comments and malformed lines are ignored, and
a second `_load_env` call is a no-op. -/
theorem load_env_spec_witness :
    ((load_env (some ["# comment", "   ", "KEEP=filevalue", "FILL=\"fromenv\"", "noequals"],
        some ["OVER='local'", "KEEP2=\"x\"", "KEEP2=y"])
      ⟨[("KEEP", "osvalue")], false, false⟩).1.env_loaded = true) ∧
    (load_env (none, none)
      (load_env (some ["# comment", "   ", "KEEP=filevalue", "FILL=\"fromenv\"", "noequals"],
          some ["OVER='local'", "KEEP2=\"x\"", "KEEP2=y"])
        ⟨[("KEEP", "osvalue")], false, false⟩).1 =
      ((load_env (some ["# comment", "   ", "KEEP=filevalue", "FILL=\"fromenv\"", "noequals"],
          some ["OVER='local'", "KEEP2=\"x\"", "KEEP2=y"])
        ⟨[("KEEP", "osvalue")], false, false⟩).1, [])) ∧
    (dictGet (load_env (some ["# comment", "   ", "KEEP=filevalue", "FILL=\"fromenv\"", "noequals"],
        some ["OVER='local'", "KEEP2=\"x\"", "KEEP2=y"])
      ⟨[("KEEP", "osvalue")], false, false⟩).1.environ "KEEP" = some "osvalue") ∧
    (dictGet (load_env (some ["# comment", "   ", "KEEP=filevalue", "FILL=\"fromenv\"", "noequals"],
        some ["OVER='local'", "KEEP2=\"x\"", "KEEP2=y"])
      ⟨[("KEEP", "osvalue")], false, false⟩).1.environ "FILL" = some "fromenv") ∧
    (dictGet (load_env (some ["# comment", "   ", "KEEP=filevalue", "FILL=\"fromenv\"", "noequals"],
        some ["OVER='local'", "KEEP2=\"x\"", "KEEP2=y"])
      ⟨[("KEEP", "osvalue")], false, false⟩).1.environ "KEEP2" = some "y") ∧
    (parseEnvLine "# comment" = none) ∧
    (pyStripChar dquoteChar "\"fromenv\"" = "fromenv") := by
  have h := load_env_spec ⟨[("KEEP", "osvalue")], false, false⟩
    ["# comment", "   ", "KEEP=filevalue", "FILL=\"fromenv\"", "noequals"]
    ["OVER='local'", "KEEP2=\"x\"", "KEEP2=y"] rfl
  refine ⟨h.1, h.2.1 (none, none), ?_, ?_, ?_,
    h.2.2.2.1 "# comment" (by right; left; decide),
    h.2.2.2.2 "fromenv" (by decide) (by decide) (by decide)⟩
  · rw [h.2.2.1 "KEEP"]
    decide
  · rw [h.2.2.1 "FILL"]
    decide
  · rw [h.2.2.1 "KEEP2"]
    decide

/-- C10: `_resolve_type_alias` is the identity on non-string hints and on
strings whose lowercased, stripped form is not a recognized alias; on a
recognized alias it depends only on that normalized form (hence it is
case- and surrounding-whitespace-insensitive) and yields the corresponding
registry entry; and `option`/`argument` apply exactly this resolution to
the `type` keyword before delegating to click. -/
theorem resolve_type_alias_spec :
    (∀ id : Nat, resolve_type_alias (TypeHint.nonStr id) =
      ResolvedType.hint (TypeHint.nonStr id)) ∧
    (∀ s : String,
      pyStrip (pyLower s) ∉ (["email", "int", "float", "str", "string", "path",
        "filepath", "dir", "directory", "uuid", "url", "json", "port"] : List String) →
      resolve_type_alias (TypeHint.str s) = ResolvedType.hint (TypeHint.str s)) ∧
    (∀ s, pyStrip (pyLower s) = "email" →
      resolve_type_alias (TypeHint.str s) = ResolvedType.registry ParamType.EMAIL) ∧
    (∀ s, pyStrip (pyLower s) = "int" →
      resolve_type_alias (TypeHint.str s) = ResolvedType.registry ParamType.clickINT) ∧
    (∀ s, pyStrip (pyLower s) = "float" →
      resolve_type_alias (TypeHint.str s) = ResolvedType.registry ParamType.clickFLOAT) ∧
    (∀ s, pyStrip (pyLower s) = "str" ∨ pyStrip (pyLower s) = "string" →
      resolve_type_alias (TypeHint.str s) = ResolvedType.registry ParamType.clickSTRING) ∧
    (∀ s, pyStrip (pyLower s) = "path" ∨ pyStrip (pyLower s) = "filepath" →
      resolve_type_alias (TypeHint.str s) = ResolvedType.registry ParamType.PATH) ∧
    (∀ s, pyStrip (pyLower s) = "dir" ∨ pyStrip (pyLower s) = "directory" →
      resolve_type_alias (TypeHint.str s) = ResolvedType.registry ParamType.DIRECTORY) ∧
    (∀ s, pyStrip (pyLower s) = "uuid" →
      resolve_type_alias (TypeHint.str s) = ResolvedType.registry ParamType.UUID_TYPE) ∧
    (∀ s, pyStrip (pyLower s) = "url" →
      resolve_type_alias (TypeHint.str s) = ResolvedType.registry ParamType.URL) ∧
    (∀ s, pyStrip (pyLower s) = "json" →
      resolve_type_alias (TypeHint.str s) = ResolvedType.registry ParamType.JSON) ∧
    (∀ s, pyStrip (pyLower s) = "port" →
      resolve_type_alias (TypeHint.str s) = ResolvedType.registry ParamType.PORT) ∧
    (∀ kw : OptionKwargs, (option kw).type? = kw.type?.map resolve_type_alias) ∧
    (∀ t : Option TypeHint, argument t = t.map resolve_type_alias) := by
  refine ⟨fun id => rfl, ?_, ?_, ?_, ?_, ?_, ?_, ?_, ?_, ?_, ?_, ?_,
    fun kw => rfl, fun t => rfl⟩
  · intro s h
    simp only [List.mem_cons, List.not_mem_nil, or_false] at h
    push_neg at h
    obtain ⟨h1, h2, h3, h4, h5, h6, h7, h8, h9, h10, h11, h12, h13⟩ := h
    simp [resolve_type_alias, h1, h2, h3, h4, h5, h6, h7, h8, h9, h10, h11, h12, h13]
  · intro s h
    simp [resolve_type_alias, h]
  · intro s h
    simp [resolve_type_alias, h]
  · intro s h
    simp [resolve_type_alias, h]
  · intro s h
    rcases h with h | h <;> simp [resolve_type_alias, h]
  · intro s h
    rcases h with h | h <;> simp [resolve_type_alias, h]
  · intro s h
    rcases h with h | h <;> simp [resolve_type_alias, h]
  · intro s h
    simp [resolve_type_alias, h]
  · intro s h
    simp [resolve_type_alias, h]
  · intro s h
    simp [resolve_type_alias, h]
  · intro s h
    simp [resolve_type_alias, h]

/-- Witness for C10: the padded mixed-case spelling `"  EMail "` resolves
to the EMAIL registry entry, the unknown alias `"custom"` is left
untouched, and `option` resolves the alias inside its kwargs. -/
theorem resolve_type_alias_spec_witness :
    (resolve_type_alias (TypeHint.str "  EMail ") = ResolvedType.registry ParamType.EMAIL) ∧
    (resolve_type_alias (TypeHint.str "custom") = ResolvedType.hint (TypeHint.str "custom")) ∧
    ((option ⟨some (TypeHint.str "  EMail "), true, none, none⟩).type? =
      some (ResolvedType.registry ParamType.EMAIL)) := by
  refine ⟨resolve_type_alias_spec.2.2.1 "  EMail " (by decide),
    resolve_type_alias_spec.2.1 "custom" (by decide), ?_⟩
  rw [resolve_type_alias_spec.2.2.2.2.2.2.2.2.2.2.2.2.1
    ⟨some (TypeHint.str "  EMail "), true, none, none⟩]
  simp only [Option.map]
  rw [resolve_type_alias_spec.2.2.1 "  EMail " (by decide)]
